import Mathlib

/-!
# codemirror-graphql: `utils/getHintsAtPosition.js`

A shallow embedding of the hint dispatcher `getHintsAtPosition` and of its
helpers `canUseDirective`, `getFragmentDefinitions` and `getDefinitionState`,
followed by theorems about them.

JavaScript values are embedded as follows.
* A grammar state record is a `State`, with the properties the module reads
  (`kind`, `step`, `name`, `type`, `prevState`); a reference that may be `null`
  is an `Option State`.
* Reading a property of `null` throws a `TypeError`; functions that can throw
  return `Except JsError _`.
* A function that may fall off its end returns `Option _`, `none` standing for
  `undefined`.
* Objects used as string-keyed maps are `ObjMap`, association lists in
  insertion order.
-/

namespace GetHints

/-! ## Grammar states -/

/-- A grammar state record of the online parser, with the properties the module
reads. `root` is a record whose `prevState` is `null`, `node` one whose
`prevState` is another record. -/
inductive State where
  | root (kind : String) (step : Nat) (name : Option String) (type : Option String) : State
  | node (kind : String) (step : Nat) (name : Option String) (type : Option String)
      (prevState : State) : State
  deriving DecidableEq, Repr

namespace State

/-- The property `state.kind`. -/
def kind : State → String
  | root k _ _ _ => k
  | node k _ _ _ _ => k

/-- The property `state.step`. -/
def step : State → Nat
  | root _ s _ _ => s
  | node _ s _ _ _ => s

/-- The property `state.name` (`none` for `null` or `undefined`). -/
def name : State → Option String
  | root _ _ n _ => n
  | node _ _ n _ _ => n

/-- The property `state.type` (`none` for `null` or `undefined`). -/
def type : State → Option String
  | root _ _ _ t => t
  | node _ _ _ t _ => t

/-- The property `state.prevState` (`none` for `null`). -/
def prevState : State → Option State
  | root _ _ _ _ => none
  | node _ _ _ _ p => some p

end State

/-- The only error the module can raise by itself: a property read on `null`. -/
inductive JsError where
  | typeError : JsError
  deriving DecidableEq, Repr

deriving instance DecidableEq for Except

/-- A schema directive, as far as the module reads it. -/
structure Directive where
  name : String
  description : Option String
  locations : List String
  deriving DecidableEq, Repr

/-! ## `Array.prototype.indexOf` -/

/-- Scan of `indexOf` from position `i`. -/
def indexOfFrom (x : String) : List String → Int → Int
  | [], _ => -1
  | y :: ys, i => if y = x then i else indexOfFrom x ys (i + 1)

/-- The method `xs.indexOf(x)`: the first index holding `x`, or `-1`. -/
def indexOf (xs : List String) (x : String) : Int :=
  indexOfFrom x xs 0

/-! ## `canUseDirective` (lines 245-295) -/

/-- The function `canUseDirective(state, directive)`. The argument `state` is
whatever the caller passes, `none` being `null`, on which `state.kind` throws. -/
def canUseDirective (state : Option State) (directive : Directive) : Except JsError Bool :=
  match state with
  | none => .error .typeError
  | some state =>
    let kind := state.kind
    let locations := directive.locations
    if kind = "Query" then .ok (indexOf locations "QUERY" != -1)
    else if kind = "Mutation" then .ok (indexOf locations "MUTATION" != -1)
    else if kind = "Subscription" then .ok (indexOf locations "SUBSCRIPTION" != -1)
    else if kind = "Field" ∨ kind = "AliasedField" then .ok (indexOf locations "FIELD" != -1)
    else if kind = "FragmentDefinition" then
      .ok (indexOf locations "FRAGMENT_DEFINITION" != -1)
    else if kind = "FragmentSpread" then .ok (indexOf locations "FRAGMENT_SPREAD" != -1)
    else if kind = "InlineFragment" then .ok (indexOf locations "INLINE_FRAGMENT" != -1)
    else if kind = "SchemaDef" then .ok (indexOf locations "SCHEMA" != -1)
    else if kind = "ScalarDef" then .ok (indexOf locations "SCALAR" != -1)
    else if kind = "ObjectTypeDef" then .ok (indexOf locations "OBJECT" != -1)
    else if kind = "FieldDef" then .ok (indexOf locations "FIELD_DEFINITION" != -1)
    else if kind = "InterfaceDef" then .ok (indexOf locations "INTERFACE" != -1)
    else if kind = "UnionDef" then .ok (indexOf locations "UNION" != -1)
    else if kind = "EnumDef" then .ok (indexOf locations "ENUM" != -1)
    else if kind = "EnumValue" then .ok (indexOf locations "ENUM_VALUE" != -1)
    else if kind = "InputDef" then .ok (indexOf locations "INPUT_OBJECT" != -1)
    else if kind = "InputValueDef" then
      -- `state.prevState && state.prevState.kind`
      let prevStateKind := state.prevState.map State.kind
      if prevStateKind = some "ArgumentsDef" then
        .ok (indexOf locations "ARGUMENT_DEFINITION" != -1)
      else if prevStateKind = some "InputDef" then
        .ok (indexOf locations "INPUT_FIELD_DEFINITION" != -1)
      else .ok false
    else .ok false

/-! ## The location table, as the specification words it -/

/-- The specification's table from an enclosing kind to its required location,
for the kinds that need no look at the parent. -/
def specLocationTable : List (String × String) :=
  [("Query", "QUERY"), ("Mutation", "MUTATION"), ("Subscription", "SUBSCRIPTION"),
   ("Field", "FIELD"), ("AliasedField", "FIELD"),
   ("FragmentDefinition", "FRAGMENT_DEFINITION"), ("FragmentSpread", "FRAGMENT_SPREAD"),
   ("InlineFragment", "INLINE_FRAGMENT"), ("SchemaDef", "SCHEMA"), ("ScalarDef", "SCALAR"),
   ("ObjectTypeDef", "OBJECT"), ("FieldDef", "FIELD_DEFINITION"),
   ("InterfaceDef", "INTERFACE"), ("UnionDef", "UNION"), ("EnumDef", "ENUM"),
   ("EnumValue", "ENUM_VALUE"), ("InputDef", "INPUT_OBJECT")]

/-- The specification's two rows for `InputValueDef`, keyed by the parent kind. -/
def specInputValueDefTable : List (String × String) :=
  [("ArgumentsDef", "ARGUMENT_DEFINITION"), ("InputDef", "INPUT_FIELD_DEFINITION")]

/-- The location the specification's table gives for an enclosing state: looked
up by the state's kind, and for `InputValueDef` by the kind of its `prevState`. -/
def specLocationOf (state : State) : Option String :=
  if state.kind = "InputValueDef" then
    match state.prevState with
    | none => none
    | some parent => specInputValueDefTable.lookup parent.kind
  else specLocationTable.lookup state.kind

/-! ## The effective state, as the specification words it -/

/-- The specification's "last valid ancestor" of a token state: the nearest
state up the `prevState` chain, the state itself included, whose kind is not
`Invalid`; `none` when every state of the chain is `Invalid`. -/
def specLastValidAncestor : State → Option State
  | .root k s n t => if k = "Invalid" then none else some (.root k s n t)
  | .node k s n t p =>
    if k = "Invalid" then specLastValidAncestor p else some (.node k s n t p)

/-! ## Objects used as maps -/

/-- A JavaScript object used as a map from names to values: its own enumerable
properties in enumeration order. The keys are GraphQL names, so enumeration
order is insertion order. -/
abbrev ObjMap (α : Type) := List (String × α)

/-- The property read `map[key]` (`none` for `undefined`). -/
def ObjMap.get {α : Type} (map : ObjMap α) (key : String) : Option α :=
  List.lookup key map

/-- The assignment `map[key] = value`: an existing property keeps its place and
takes the new value, a new property goes last. -/
def ObjMap.set {α : Type} : ObjMap α → String → α → ObjMap α
  | [], key, value => [(key, value)]
  | (k, v) :: rest, key, value =>
    if k = key then (k, value) :: rest else (k, v) :: ObjMap.set rest key value

/-- Modelled from the spec: `objectValues` of `./objectValues`, a file of the
repository that is not among the sources. It lists the values of a map in the
map's order (the spec's "order-preserving map keyed by name"). -/
def objectValues {α : Type} (map : ObjMap α) : List α :=
  map.map Prod.snd

/-! ## Schema objects and the `graphql` library -/

/-- A field definition of an object or interface type, and the meta fields. -/
structure FieldDef (T : Type) where
  name : String
  type : T
  description : Option String
  isDeprecated : Option Bool
  deprecationReason : Option String

/-- An argument definition; also the shape of an input-object field. -/
structure ArgDef (T : Type) where
  name : String
  type : T
  description : Option String

/-- A value of an enum type. -/
structure EnumValueDef where
  name : String
  description : Option String
  isDeprecated : Option Bool
  deprecationReason : Option String

/-- The schema object, with the methods the module calls. `T` is the type of
GraphQL type objects, compared by identity. -/
structure Schema (T : Type) where
  getQueryType : Option T
  getTypeMap : ObjMap T
  getPossibleTypes : T → List T
  getDirectives : List Directive

/-- The `graphql` library: the properties and methods of type objects the
module reads, the predicates and constants it imports. -/
structure GraphQL (T : Type) where
  /-- The property `type.name`. -/
  name : T → String
  /-- The property `type.description`. -/
  description : T → Option String
  /-- The method `type.getFields()`, `none` when the type has no such method. -/
  getFields : T → Option (ObjMap (FieldDef T))
  /-- The method `type.getInterfaces()`. -/
  getInterfaces : T → List T
  /-- The method `enumType.getValues()`. -/
  getValues : T → ObjMap EnumValueDef
  isAbstractType : T → Bool
  isCompositeType : T → Bool
  isInputType : T → Bool
  /-- The test `type instanceof GraphQLEnumType`. -/
  isEnumType : T → Bool
  getNamedType : Option T → Option T
  /-- The function `doTypesOverlap(schema, typeA, typeB)`. It reads properties of
  its arguments and throws when it reads one of an `undefined` first type. -/
  doTypesOverlap : Schema T → Option T → T → Except JsError Bool
  GraphQLBoolean : T
  TypeNameMetaFieldDef : FieldDef T
  SchemaMetaFieldDef : FieldDef T
  TypeMetaFieldDef : FieldDef T

/-- The result of `getTypeInfo(schema, state)`. -/
structure TypeInfo (T : Type) where
  parentType : Option T
  inputType : Option T
  argDefs : Option (List (ArgDef T))
  objectFieldDefs : Option (ObjMap (ArgDef T))

/-! ## Tokens, cursors, hints -/

/-- The cursor position. -/
structure Cursor where
  line : Nat
  column : Nat
  deriving DecidableEq, Repr

/-- The context token under the cursor. -/
structure Token where
  string : String
  start : Nat
  stop : Nat
  state : State
  deriving DecidableEq, Repr

/-- One entry of a candidate list; an absent or `undefined` property is `none`. -/
structure Hint (T : Type) where
  text : String
  type : Option T := none
  description : Option String := none
  isDeprecated : Option Bool := none
  deprecationReason : Option String := none
  deriving DecidableEq, Repr

/-- The collaborators of the repository whose files are not among the sources:
`getTypeInfo`, `hintList` (ranking, with result type `R`) and `runParser`, the
latter given by the states its callback is invoked with, in order, on a source
text. -/
structure Collaborators (T R : Type) where
  getTypeInfo : Schema T → State → TypeInfo T
  hintList : Cursor → Token → List (Hint T) → R
  runParser : String → List State

/-! ## `getFragmentDefinitions` (lines 297-326) -/

/-- A node `{ kind: 'Name', value }`. -/
structure NameNode where
  kind : String
  value : String
  deriving DecidableEq, Repr

/-- A node `{ kind: 'NamedType', name }`. -/
structure NamedTypeNode where
  kind : String
  name : NameNode
  deriving DecidableEq, Repr

/-- A node `{ kind: 'FragmentDefinition', name, typeCondition }`. -/
structure FragmentDefinitionNode where
  kind : String
  name : NameNode
  typeCondition : NamedTypeNode
  deriving DecidableEq, Repr

/-- Truthiness of a string-or-null property: a non-empty string. -/
def truthy : Option String → Bool
  | some s => s != ""
  | none => false

/-- The function `getFragmentDefinitions(sourceText)`, over the scanner run
`runParser`. -/
def getFragmentDefinitions (runParser : String → List State) (sourceText : String) :
    List FragmentDefinitionNode :=
  (runParser sourceText).foldl (fun fragmentDefs state =>
    match state.name, state.type with
    | some name, some type =>
      if state.kind = "FragmentDefinition" ∧ truthy (some name) ∧ truthy (some type) then
        fragmentDefs ++ [{
          kind := "FragmentDefinition"
          name := { kind := "Name", value := name }
          typeCondition := { kind := "NamedType", name := { kind := "Name", value := type } } }]
      else fragmentDefs
    | _, _ => fragmentDefs) []

/-! ## `getDefinitionState` (lines 328-346) -/

/-- Modelled from the spec: `forEachState` of `./forEachState`, a file of the
repository that is not among the sources, given by the states its callback is
invoked with, in order. The chain is walked from the token state to the root,
and the callback is invoked once per state of the chain, the token state last:
the order under which the overwrite of lines 333-343 keeps the spec's "closest
ancestor definition header". -/
def forEachState : State → List State
  | .root k s n t => [.root k s n t]
  | .node k s n t p => forEachState p ++ [.node k s n t p]

/-- The function `getDefinitionState(tokenState)`. -/
def getDefinitionState (tokenState : State) : Option State :=
  (forEachState tokenState).foldl (fun definitionState state =>
    if state.kind = "Query" ∨ state.kind = "ShortQuery" ∨ state.kind = "Mutation" ∨
        state.kind = "Subscription" ∨ state.kind = "FragmentDefinition" then
      some state
    else definitionState) none

/-! ## Fragment records and enclosing definitions, as the specification words them -/

/-- The specification's record for one invocation of the scanner's visitor: a
record when the state has kind `FragmentDefinition` with both a non-empty name
and a non-empty type, the record's name value being `state.name` and its type
condition's name value `state.type`; nothing otherwise. -/
def specFragmentRecord (state : State) : Option FragmentDefinitionNode :=
  if state.kind = "FragmentDefinition" then
    match state.name, state.type with
    | some name, some type =>
      if name ≠ "" ∧ type ≠ "" then
        some { kind := "FragmentDefinition"
               name := { kind := "Name", value := name }
               typeCondition :=
                 { kind := "NamedType", name := { kind := "Name", value := type } } }
      else none
    | _, _ => none
  else none

/-- The kinds of the definition headers: `Query`, `ShortQuery`, `Mutation`,
`Subscription`, `FragmentDefinition`. -/
def isDefinitionKind (kind : String) : Bool :=
  kind = "Query" ∨ kind = "ShortQuery" ∨ kind = "Mutation" ∨ kind = "Subscription" ∨
    kind = "FragmentDefinition"

/-- The specification's "closest ancestor definition header" of a token state:
the state nearest to the token, the token state included, whose kind is a
definition kind; `none` when no state of the chain has one. -/
def specClosestDefinition : State → Option State
  | .root k s n t => if isDefinitionKind k then some (.root k s n t) else none
  | .node k s n t p =>
    if isDefinitionKind k then some (.node k s n t p) else specClosestDefinition p

/-! ## The interfaces of a type condition, as the specification words them -/

/-- Insertion into an order-preserving collection keyed by name where the first
occurrence wins: an element whose name is already there is dropped. -/
def specInsertIfAbsent {α : Type} (name : α → String) (acc : List α) (x : α) : List α :=
  if acc.any (fun y => name y = name x) then acc else acc ++ [x]

/-- The specification's de-duplication by name: order of first appearance, the
first occurrence of a name is the one kept. -/
def specDedupByName {α : Type} (name : α → String) (xs : List α) : List α :=
  xs.foldl (specInsertIfAbsent name) []

/-- The last element of a list that has a given name. -/
def lastWithName {α : Type} (name : α → String) (xs : List α) (n : String) : Option α :=
  xs.reverse.find? (fun x => name x = n)

/-- De-duplication by name in the order of first appearance of the names, the
last occurrence of a name being the one kept. -/
def dedupByNameLastKept {α : Type} (name : α → String) (xs : List α) : List α :=
  (specDedupByName id (xs.map name)).filterMap (lastWithName name xs)

/-- The interfaces `type.getInterfaces()` of the given object types, in the
order the two nested `forEach` of lines 162-166 visit them. -/
def implementedInterfaces {T : Type} (lib : GraphQL T) (possibleObjTypes : List T) : List T :=
  (possibleObjTypes.map lib.getInterfaces).flatten

/-! ## `getHintsAtPosition` (lines 60-243) -/

section Dispatcher

variable {T R : Type} [DecidableEq T]

/-- A filter whose callback may throw: the first throw aborts the filter. -/
def filterThrowing {α : Type} (f : α → Except JsError Bool) : List α → Except JsError (List α)
  | [] => .ok []
  | x :: xs =>
    match f x with
    | .error e => .error e
    | .ok keep =>
      match filterThrowing f xs with
      | .error e => .error e
      | .ok rest => .ok (if keep then x :: rest else rest)

/-- Line 63: the state the dispatcher works on, `token.state.prevState` when the
token's state is `Invalid` (possibly `null`), else `token.state`. -/
def effectiveState (token : Token) : Option State :=
  if token.state.kind = "Invalid" then token.state.prevState else some token.state

/-- Line 70, the condition of "Definition kinds". -/
def isDocument (state : State) : Bool :=
  state.kind = "Document"

/-- Line 75, the condition of "Field names". -/
def isFieldNames (state : State) : Bool :=
  state.kind = "SelectionSet" ∨ state.kind = "Field" ∨ state.kind = "AliasedField"

/-- Line 97, the condition of "Argument names". -/
def isArgumentNames (state : State) : Bool :=
  state.kind = "Arguments" ∨ (state.kind = "Argument" ∧ state.step = 0)

/-- Line 111, the condition of "Input Object fields". -/
def isInputObjectFields (state : State) : Bool :=
  state.kind = "ObjectValue" ∨ (state.kind = "ObjectField" ∧ state.step = 0)

/-- Line 125, the condition of "Input values". -/
def isInputValues (state : State) : Bool :=
  state.kind = "EnumValue" ∨ (state.kind = "ListValue" ∧ state.step = 1) ∨
    (state.kind = "ObjectField" ∧ state.step = 2) ∨ (state.kind = "Argument" ∧ state.step = 2)

/-- Line 153, the condition of "Fragment type conditions"; `state.prevState.kind`
throws when it is reached with `prevState` being `null`. -/
def isTypeCondition (state : State) : Except JsError Bool :=
  if state.kind = "TypeCondition" ∧ state.step = 1 then .ok true
  else if state.kind = "NamedType" then
    match state.prevState with
    | none => .error .typeError
    | some prevState => .ok (prevState.kind = "TypeCondition")
  else .ok false

/-- Line 187, the condition of "Fragment spread names". -/
def isFragmentSpread (state : State) : Bool :=
  state.kind = "FragmentSpread" ∧ state.step = 1

/-- Line 220, the condition of "Variable definition types"; `state.prevState.kind`
throws when it is reached with `prevState` being `null`. -/
def isVariableDefinitionTypes (state : State) : Except JsError Bool :=
  if state.kind = "VariableDefinition" ∧ state.step = 2 then .ok true
  else if state.kind = "ListType" ∧ state.step = 1 then .ok true
  else if state.kind = "NamedType" then
    match state.prevState with
    | none => .error .typeError
    | some prevState =>
      .ok (prevState.kind = "VariableDefinition" ∨ prevState.kind = "ListType")
  else .ok false

/-- Line 232, the condition of "Directive names". -/
def isDirective (state : State) : Bool :=
  state.kind = "Directive"

/-- Lines 160-167: the map from interface names to the interfaces of the
possible object types, filled in the order of the two nested `forEach`. -/
def possibleIfaceMap (lib : GraphQL T) (possibleObjTypes : List T) : ObjMap T :=
  possibleObjTypes.foldl (fun map type =>
    (lib.getInterfaces type).foldl (fun map iface => map.set (lib.name iface) iface) map) []

/-- Lines 154-177: the variable `possibleTypes` of the type-condition rule. -/
def possibleTypes (lib : GraphQL T) (schema : Schema T) (typeInfo : TypeInfo T) : List T :=
  match typeInfo.parentType with
  | some parentType =>
    if lib.isAbstractType parentType then
      let possibleObjTypes := schema.getPossibleTypes parentType
      possibleObjTypes ++ objectValues (possibleIfaceMap lib possibleObjTypes)
    else [parentType]
  | none => (objectValues schema.getTypeMap).filter lib.isCompositeType

/-- Line 199: the test `defState && defState.kind === 'FragmentDefinition' &&
defState.name === frag.name.value`. -/
def isEnclosingFragment (defState : Option State) (frag : FragmentDefinitionNode) : Bool :=
  match defState with
  | none => false
  | some defState =>
    decide (defState.kind = "FragmentDefinition" ∧ defState.name = some frag.name.value)

/-- Lines 194-203: the callback of the filter that yields `relevantFrags`. The
three tests are joined by `&&`: `doTypesOverlap` is called, with whatever
`typeInfo.parentType` is, only when the two tests before it pass, and the
callback throws when that call throws. -/
def isRelevantFrag (lib : GraphQL T) (schema : Schema T) (typeInfo : TypeInfo T)
    (typeMap : ObjMap T) (defState : Option State) (frag : FragmentDefinitionNode) :
    Except JsError Bool :=
  match typeMap.get frag.typeCondition.name.value with
  | none => .ok false
  | some fragType =>
    if isEnclosingFragment defState frag then .ok false
    else lib.doTypesOverlap schema typeInfo.parentType fragType

/-- Line 71: the keyword literals. -/
def keywordHints : List (Hint T) :=
  [{ text := "query" }, { text := "mutation" }, { text := "subscription" },
   { text := "fragment" }, { text := "\x7b" }]

/-- Lines 84-92: the callback that makes a hint of a field. -/
def fieldHint (field : FieldDef T) : Hint T :=
  { text := field.name
    type := some field.type
    description := field.description
    isDeprecated := field.isDeprecated
    deprecationReason := field.deprecationReason }

/-- Lines 100-106 and 114-120: the callback that makes a hint of an
argument definition or of an input-object field. -/
def argHint (argDef : ArgDef T) : Hint T :=
  { text := argDef.name, type := some argDef.type, description := argDef.description }

/-- Lines 132-140: the callback that makes a hint of an enum value. -/
def enumValueHint (namedInputType : T) (value : EnumValueDef) : Hint T :=
  { text := value.name
    type := some namedInputType
    description := value.description
    isDeprecated := value.isDeprecated
    deprecationReason := value.deprecationReason }

/-- Line 144: the two Boolean literals. -/
def booleanHints (lib : GraphQL T) : List (Hint T) :=
  [{ text := "true", type := some lib.GraphQLBoolean, description := some "Not false." },
   { text := "false", type := some lib.GraphQLBoolean, description := some "Not true." }]

/-- Lines 178-183 and 223-228: the callback that makes a hint of a type. -/
def typeHint (lib : GraphQL T) (type : T) : Hint T :=
  { text := lib.name type, description := lib.description type }

/-- Lines 206-212: the callback that makes a hint of a fragment. -/
def fragHint (typeMap : ObjMap T) (frag : FragmentDefinitionNode) : Hint T :=
  { text := frag.name.value
    type := typeMap.get frag.typeCondition.name.value
    description :=
      some ("fragment " ++ frag.name.value ++ " on " ++ frag.typeCondition.name.value) }

/-- Lines 236-241: the callback that makes a hint of a directive. -/
def directiveHint (directive : Directive) : Hint T :=
  { text := directive.name, description := directive.description }

/-- One rule of the dispatcher after another: the next rule runs when the
previous one neither returned nor threw. -/
def orNext {α : Type} (rule : Except JsError (Option α))
    (next : Except JsError (Option α)) : Except JsError (Option α) :=
  match rule with
  | .ok none => next
  | result => result

/-- Lines 69-72, "Definition kinds". -/
def definitionKindsRule (c : Collaborators T R) (cursor : Cursor) (token : Token)
    (state : State) : Except JsError (Option R) :=
  if isDocument state then
    .ok (some (c.hintList cursor token keywordHints))
  else .ok none

/-- Lines 74-94, "Field names". -/
def fieldNamesRule (lib : GraphQL T) (c : Collaborators T R) (schema : Schema T)
    (cursor : Cursor) (token : Token) (state : State) (typeInfo : TypeInfo T) :
    Except JsError (Option R) :=
  if isFieldNames state then
    match typeInfo.parentType with
    | some parentType =>
      let fields := match lib.getFields parentType with
        | some fieldMap => objectValues fieldMap
        | none => []
      let fields := if lib.isAbstractType parentType then
        fields ++ [lib.TypeNameMetaFieldDef] else fields
      let fields := if some parentType = schema.getQueryType then
        fields ++ [lib.SchemaMetaFieldDef, lib.TypeMetaFieldDef] else fields
      .ok (some (c.hintList cursor token (fields.map fieldHint)))
    | none => .ok none
  else .ok none

/-- Lines 96-108, "Argument names". -/
def argumentNamesRule (c : Collaborators T R) (cursor : Cursor) (token : Token)
    (state : State) (typeInfo : TypeInfo T) : Except JsError (Option R) :=
  if isArgumentNames state then
    match typeInfo.argDefs with
    | some argDefs =>
      .ok (some (c.hintList cursor token (argDefs.map argHint)))
    | none => .ok none
  else .ok none

/-- Lines 110-122, "Input Object fields". -/
def inputObjectFieldsRule (c : Collaborators T R) (cursor : Cursor) (token : Token)
    (state : State) (typeInfo : TypeInfo T) : Except JsError (Option R) :=
  if isInputObjectFields state then
    match typeInfo.objectFieldDefs with
    | some objectFieldDefs =>
      let objectFields := objectValues objectFieldDefs
      .ok (some (c.hintList cursor token (objectFields.map argHint)))
    | none => .ok none
  else .ok none

/-- Lines 124-150, "Input values: Enum and Boolean". -/
def inputValuesRule (lib : GraphQL T) (c : Collaborators T R) (cursor : Cursor)
    (token : Token) (state : State) (typeInfo : TypeInfo T) : Except JsError (Option R) :=
  if isInputValues state then
    match lib.getNamedType typeInfo.inputType with
    | some namedInputType =>
      if lib.isEnumType namedInputType then
        let valueMap := lib.getValues namedInputType
        let values := objectValues valueMap
        .ok (some (c.hintList cursor token (values.map (enumValueHint namedInputType))))
      else if namedInputType = lib.GraphQLBoolean then
        .ok (some (c.hintList cursor token (booleanHints lib)))
      else .ok none
    | none => .ok none
  else .ok none

/-- Lines 152-184, "Fragment type conditions". -/
def typeConditionRule (lib : GraphQL T) (c : Collaborators T R) (schema : Schema T)
    (cursor : Cursor) (token : Token) (state : State) (typeInfo : TypeInfo T) :
    Except JsError (Option R) :=
  match isTypeCondition state with
  | .error e => .error e
  | .ok true =>
    .ok (some (c.hintList cursor token ((possibleTypes lib schema typeInfo).map (typeHint lib))))
  | .ok false => .ok none

/-- Lines 186-217, "Fragment spread names". -/
def fragmentSpreadRule (lib : GraphQL T) (c : Collaborators T R) (schema : Schema T)
    (sourceText : String) (cursor : Cursor) (token : Token) (state : State)
    (typeInfo : TypeInfo T) : Except JsError (Option R) :=
  if isFragmentSpread state then
    let typeMap := schema.getTypeMap
    let defState := getDefinitionState token.state
    let fragments := getFragmentDefinitions c.runParser sourceText
    match filterThrowing (isRelevantFrag lib schema typeInfo typeMap defState) fragments with
    | .error e => .error e
    | .ok relevantFrags =>
      .ok (some (c.hintList cursor token (relevantFrags.map (fragHint typeMap))))
  else .ok none

/-- Lines 219-229, "Variable definition types". -/
def variableDefinitionTypesRule (lib : GraphQL T) (c : Collaborators T R) (schema : Schema T)
    (cursor : Cursor) (token : Token) (state : State) : Except JsError (Option R) :=
  match isVariableDefinitionTypes state with
  | .error e => .error e
  | .ok true =>
    let inputTypeMap := schema.getTypeMap
    let inputTypes := (objectValues inputTypeMap).filter lib.isInputType
    .ok (some (c.hintList cursor token (inputTypes.map (typeHint lib))))
  | .ok false => .ok none

/-- Lines 231-242, "Directive names". -/
def directiveRule (c : Collaborators T R) (schema : Schema T) (cursor : Cursor)
    (token : Token) (state : State) : Except JsError (Option R) :=
  if isDirective state then
    match filterThrowing (fun directive => canUseDirective state.prevState directive)
        schema.getDirectives with
    | .error e => .error e
    | .ok directives =>
      .ok (some (c.hintList cursor token (directives.map directiveHint)))
  else .ok none

/-- The function `getHintsAtPosition(schema, sourceText, cursor, token)`:
`.error` when it throws, `.ok none` when it returns `undefined`, `.ok (some r)`
when it returns the result `r` of `hintList`. -/
def getHintsAtPosition (lib : GraphQL T) (c : Collaborators T R) (schema : Schema T)
    (sourceText : String) (cursor : Cursor) (token : Token) : Except JsError (Option R) :=
  match effectiveState token with
  | none => .error .typeError
  | some state =>
    let typeInfo := c.getTypeInfo schema state
    orNext (definitionKindsRule c cursor token state) <|
    orNext (fieldNamesRule lib c schema cursor token state typeInfo) <|
    orNext (argumentNamesRule c cursor token state typeInfo) <|
    orNext (inputObjectFieldsRule c cursor token state typeInfo) <|
    orNext (inputValuesRule lib c cursor token state typeInfo) <|
    orNext (typeConditionRule lib c schema cursor token state typeInfo) <|
    orNext (fragmentSpreadRule lib c schema sourceText cursor token state typeInfo) <|
    orNext (variableDefinitionTypesRule lib c schema cursor token state) <|
    directiveRule c schema cursor token state

/-- The candidate list handed to ranking: the dispatcher run with a `hintList`
that returns the list it is given. -/
def candidateList (lib : GraphQL T) (getTypeInfo : Schema T → State → TypeInfo T)
    (runParser : String → List State) (schema : Schema T) (sourceText : String)
    (cursor : Cursor) (token : Token) : Except JsError (Option (List (Hint T))) :=
  getHintsAtPosition lib
    { getTypeInfo := getTypeInfo, hintList := fun _ _ list => list, runParser := runParser }
    schema sourceText cursor token

/-- The nine dispatch conditions of `getHintsAtPosition` on a state, in the order
of the source. -/
def dispatchConditions (state : State) : List (Except JsError Bool) :=
  [.ok (isDocument state), .ok (isFieldNames state), .ok (isArgumentNames state),
   .ok (isInputObjectFields state), .ok (isInputValues state), isTypeCondition state,
   .ok (isFragmentSpread state), isVariableDefinitionTypes state, .ok (isDirective state)]

/-- The nine rules of `getHintsAtPosition` on a state, in the order of the
source. -/
def dispatchRules (lib : GraphQL T) (c : Collaborators T R) (schema : Schema T)
    (sourceText : String) (cursor : Cursor) (token : Token) (state : State) :
    List (Except JsError (Option R)) :=
  let typeInfo := c.getTypeInfo schema state
  [definitionKindsRule c cursor token state,
   fieldNamesRule lib c schema cursor token state typeInfo,
   argumentNamesRule c cursor token state typeInfo,
   inputObjectFieldsRule c cursor token state typeInfo,
   inputValuesRule lib c cursor token state typeInfo,
   typeConditionRule lib c schema cursor token state typeInfo,
   fragmentSpreadRule lib c schema sourceText cursor token state typeInfo,
   variableDefinitionTypesRule lib c schema cursor token state,
   directiveRule c schema cursor token state]

/-- A list of rules tested one after another: the result of the first rule that
returns or throws, `undefined` when none does. -/
def runRules {α : Type} (rules : List (Except JsError (Option α))) : Except JsError (Option α) :=
  rules.foldr orNext (.ok none)

end Dispatcher

/-! ## A small schema and document, used to evaluate the definitions -/

namespace Fixture

/-- A type object with a name and a description. -/
structure TypeObj where
  name : String
  description : Option String
  deriving DecidableEq, Repr

def queryT : TypeObj := ⟨"Query", none⟩
def petT : TypeObj := ⟨"Pet", some "An animal."⟩
def namedT : TypeObj := ⟨"Named", none⟩
def dogT : TypeObj := ⟨"Dog", none⟩
def catT : TypeObj := ⟨"Cat", none⟩
def booleanT : TypeObj := ⟨"Boolean", none⟩
def stringT : TypeObj := ⟨"String", none⟩

def skipD : Directive := ⟨"skip", none, ["FIELD", "FRAGMENT_SPREAD", "INLINE_FRAGMENT"]⟩
def deprecatedD : Directive := ⟨"deprecated", none, ["FIELD_DEFINITION", "ENUM_VALUE"]⟩

/-- The schema: `Pet` and `Named` are interfaces of the objects `Dog` and `Cat`. -/
def schema : Schema TypeObj where
  getQueryType := some queryT
  getTypeMap := [("Query", queryT), ("Pet", petT), ("Named", namedT), ("Dog", dogT),
    ("Cat", catT), ("Boolean", booleanT), ("String", stringT)]
  getPossibleTypes := fun t => if t = petT ∨ t = namedT then [dogT, catT] else []
  getDirectives := [skipD, deprecatedD]

def nameField : FieldDef TypeObj := ⟨"name", stringT, none, none, none⟩
def petField : FieldDef TypeObj := ⟨"pet", petT, none, none, none⟩

/-- The library over the fixture's type objects. -/
def lib : GraphQL TypeObj where
  name := TypeObj.name
  description := TypeObj.description
  getFields := fun t =>
    if t = queryT then some [("pet", petField)]
    else if t = petT ∨ t = namedT ∨ t = dogT ∨ t = catT then some [("name", nameField)]
    else none
  getInterfaces := fun t =>
    if t = dogT then [petT, namedT] else if t = catT then [namedT, petT] else []
  getValues := fun _ => []
  isAbstractType := fun t => t = petT ∨ t = namedT
  isCompositeType := fun t => t = queryT ∨ t = petT ∨ t = namedT ∨ t = dogT ∨ t = catT
  isInputType := fun t => t = booleanT ∨ t = stringT
  isEnumType := fun _ => false
  getNamedType := fun t => t
  doTypesOverlap := fun schema a b =>
    match a with
    | none => if b = petT ∨ b = namedT then .error .typeError else .ok false
    | some a =>
      .ok (a = b || (schema.getPossibleTypes a).contains b ||
        (schema.getPossibleTypes b).contains a ||
        (schema.getPossibleTypes a).any (fun t => (schema.getPossibleTypes b).contains t))
  GraphQLBoolean := booleanT
  TypeNameMetaFieldDef := ⟨"__typename", stringT, none, none, none⟩
  SchemaMetaFieldDef := ⟨"__schema", stringT, none, none, none⟩
  TypeMetaFieldDef := ⟨"__type", stringT, none, none, none⟩

/-- A type resolver that finds the parent type `Pet` everywhere. -/
def getTypeInfo : Schema TypeObj → State → TypeInfo TypeObj :=
  fun _ _ => { parentType := some petT, inputType := none, argDefs := none,
               objectFieldDefs := none }

/-- A type resolver that finds nothing. -/
def getNoTypeInfo : Schema TypeObj → State → TypeInfo TypeObj :=
  fun _ _ => { parentType := none, inputType := none, argDefs := none,
               objectFieldDefs := none }

/-- A scanner run: four completed fragment definitions, one of them on a type
the schema does not have, one on a type that does not overlap `Pet`, and a
fragment definition whose type is not yet typed. -/
def runParser : String → List State :=
  fun _ =>
    [.root "Document" 0 none none,
     .node "FragmentDefinition" 4 (some "DogFields") (some "Dog") (.root "Document" 0 none none),
     .node "FragmentDefinition" 4 (some "PetFields") (some "Pet") (.root "Document" 0 none none),
     .node "FragmentDefinition" 4 (some "Ghost") (some "Missing") (.root "Document" 0 none none),
     .node "FragmentDefinition" 4 (some "QueryFields") (some "Query")
       (.root "Document" 0 none none),
     .node "FragmentDefinition" 2 (some "Half") none (.root "Document" 0 none none)]

/-- A type resolver that finds the input type `String` everywhere. -/
def getStringInput : Schema TypeObj → State → TypeInfo TypeObj :=
  fun _ _ => { parentType := none, inputType := some stringT, argDefs := none,
               objectFieldDefs := none }

/-- Collaborators whose resolver finds nothing and whose ranking returns the
list it is given. -/
def blind : Collaborators TypeObj (List (Hint TypeObj)) :=
  { getTypeInfo := getNoTypeInfo, hintList := fun _ _ list => list, runParser := runParser }

/-- Collaborators whose resolver finds the input type `String` and whose ranking
returns the list it is given. -/
def stringly : Collaborators TypeObj (List (Hint TypeObj)) :=
  { getTypeInfo := getStringInput, hintList := fun _ _ list => list, runParser := runParser }

def cursor : Cursor := ⟨3, 7⟩

/-- The state inside the selection set of `fragment PetFields on Pet`, after `...`. -/
def spreadInPetFields : State :=
  .node "FragmentSpread" 1 none none
    (.node "Selection" 0 none none
      (.node "SelectionSet" 1 none none
        (.node "FragmentDefinition" 4 (some "PetFields") (some "Pet")
          (.root "Document" 0 none none))))

/-- Collaborators whose resolver finds the parent type `Pet` and whose ranking
returns the list it is given. -/
def petly : Collaborators TypeObj (List (Hint TypeObj)) :=
  { getTypeInfo := getTypeInfo, hintList := fun _ _ list => list, runParser := runParser }

/-- The state of an empty document. -/
def document : State := .root "Document" 0 none none

/-- An `Invalid` state on an `Invalid` state on the document state. -/
def invalidTwice : State :=
  .node "Invalid" 0 none none (.node "Invalid" 0 none none document)

/-- The schema where the possible types of `Pet` list `Dog` twice. -/
def doubledSchema : Schema TypeObj :=
  { schema with getPossibleTypes := fun t => if t = petT then [dogT, dogT] else [] }

/-- The state after `... on` inside a selection set on `Pet`. -/
def typeConditionInPet : State :=
  .node "TypeCondition" 1 none none
    (.node "InlineFragment" 1 none none
      (.node "Selection" 0 none none
        (.node "SelectionSet" 1 none none
          (.node "Query" 1 none none (.root "Document" 0 none none)))))

/-- An enum type. -/
def speciesT : TypeObj := ⟨"Species", some "The kinds of pet."⟩

/-- The library where `Species` is an enum of two values, one deprecated. -/
def enumLib : GraphQL TypeObj :=
  { lib with
    isEnumType := fun t => t = speciesT
    getValues := fun t =>
      if t = speciesT then
        [("DOG", ⟨"DOG", some "A dog.", some false, none⟩),
         ("CAT", ⟨"CAT", none, some true, some "No cats."⟩)]
      else [] }

/-- A type resolver that finds the input type `Species` everywhere. -/
def getSpeciesInput : Schema TypeObj → State → TypeInfo TypeObj :=
  fun _ _ => { parentType := none, inputType := some speciesT, argDefs := none,
               objectFieldDefs := none }

/-- A type resolver that finds the input type `Boolean` everywhere. -/
def getBooleanInput : Schema TypeObj → State → TypeInfo TypeObj :=
  fun _ _ => { parentType := none, inputType := some booleanT, argDefs := none,
               objectFieldDefs := none }

/-- A type resolver that finds the parent type `Dog` everywhere. -/
def getDogInfo : Schema TypeObj → State → TypeInfo TypeObj :=
  fun _ _ => { parentType := some dogT, inputType := none, argDefs := none,
               objectFieldDefs := none }

/-- A type resolver that finds the parent type `Query` everywhere. -/
def getQueryInfo : Schema TypeObj → State → TypeInfo TypeObj :=
  fun _ _ => { parentType := some queryT, inputType := none, argDefs := none,
               objectFieldDefs := none }

/-- The state of an argument value, after `species:`. -/
def argumentValue : State :=
  .node "Argument" 2 (some "species") none
    (.node "Arguments" 1 none none
      (.node "Field" 2 (some "pet") none
        (.node "Selection" 0 none none
          (.node "SelectionSet" 1 none none
            (.node "Query" 1 none none (.root "Document" 0 none none))))))

/-- The state inside the selection set of a query. -/
def selectionSetInQuery : State :=
  .node "SelectionSet" 1 none none
    (.node "Query" 1 none none (.root "Document" 0 none none))

/-- The state of a spread inside the selection set of `query DogFields`, a
query named like a fragment of the document. -/
def spreadInQuery : State :=
  .node "FragmentSpread" 1 none none
    (.node "Selection" 0 none none
      (.node "SelectionSet" 1 none none
        (.node "Query" 2 (some "DogFields") none (.root "Document" 0 none none))))

/-- A chain with two definition headers: a field inside a query header inside a
fragment definition header. -/
def nestedDefinitions : State :=
  .node "Field" 0 (some "name") none
    (.node "Query" 1 (some "Inner") none
      (.node "FragmentDefinition" 4 (some "Outer") (some "Pet")
        (.root "Document" 0 none none)))

end Fixture

/-! ## Lemmas on `indexOf` and `canUseDirective` -/

theorem indexOfFrom_eq_neg_one_iff (x : String) (xs : List String) (i : Int) (hi : 0 ≤ i) :
    indexOfFrom x xs i = -1 ↔ x ∉ xs := by
  induction xs generalizing i with
  | nil => simp [indexOfFrom]
  | cons y ys ih =>
    unfold indexOfFrom
    by_cases h : y = x
    · subst h
      simp only [if_true, List.mem_cons, true_or, not_true_eq_false, iff_false]
      omega
    · have h2 : ¬ x = y := fun e => h e.symm
      simp only [if_neg h, List.mem_cons, h2, false_or]
      exact ih (i + 1) (by omega)

theorem indexOf_eq_neg_one_iff (xs : List String) (x : String) :
    indexOf xs x = -1 ↔ x ∉ xs :=
  indexOfFrom_eq_neg_one_iff x xs 0 (le_refl 0)

/-- On a state record `canUseDirective` returns, and it returns `true` exactly
when the specification's table has a location for the state that the directive
lists. -/
theorem canUseDirective_eq_table (state : State) (directive : Directive) :
    ∃ b, canUseDirective (some state) directive = .ok b ∧
      (b = true ↔ ∃ L, specLocationOf state = some L ∧ L ∈ directive.locations) := by
  by_cases h0 : state.kind = "Query"
  · simp [canUseDirective, specLocationOf, specLocationTable, List.lookup, h0,
      indexOf_eq_neg_one_iff]
  by_cases h1 : state.kind = "Mutation"
  · simp [canUseDirective, specLocationOf, specLocationTable, List.lookup, h1,
      indexOf_eq_neg_one_iff]
  by_cases h2 : state.kind = "Subscription"
  · simp [canUseDirective, specLocationOf, specLocationTable, List.lookup, h2,
      indexOf_eq_neg_one_iff]
  by_cases h3 : state.kind = "Field"
  · simp [canUseDirective, specLocationOf, specLocationTable, List.lookup, h3,
      indexOf_eq_neg_one_iff]
  by_cases h4 : state.kind = "AliasedField"
  · simp [canUseDirective, specLocationOf, specLocationTable, List.lookup, h4,
      indexOf_eq_neg_one_iff]
  by_cases h5 : state.kind = "FragmentDefinition"
  · simp [canUseDirective, specLocationOf, specLocationTable, List.lookup, h5,
      indexOf_eq_neg_one_iff]
  by_cases h6 : state.kind = "FragmentSpread"
  · simp [canUseDirective, specLocationOf, specLocationTable, List.lookup, h6,
      indexOf_eq_neg_one_iff]
  by_cases h7 : state.kind = "InlineFragment"
  · simp [canUseDirective, specLocationOf, specLocationTable, List.lookup, h7,
      indexOf_eq_neg_one_iff]
  by_cases h8 : state.kind = "SchemaDef"
  · simp [canUseDirective, specLocationOf, specLocationTable, List.lookup, h8,
      indexOf_eq_neg_one_iff]
  by_cases h9 : state.kind = "ScalarDef"
  · simp [canUseDirective, specLocationOf, specLocationTable, List.lookup, h9,
      indexOf_eq_neg_one_iff]
  by_cases h10 : state.kind = "ObjectTypeDef"
  · simp [canUseDirective, specLocationOf, specLocationTable, List.lookup, h10,
      indexOf_eq_neg_one_iff]
  by_cases h11 : state.kind = "FieldDef"
  · simp [canUseDirective, specLocationOf, specLocationTable, List.lookup, h11,
      indexOf_eq_neg_one_iff]
  by_cases h12 : state.kind = "InterfaceDef"
  · simp [canUseDirective, specLocationOf, specLocationTable, List.lookup, h12,
      indexOf_eq_neg_one_iff]
  by_cases h13 : state.kind = "UnionDef"
  · simp [canUseDirective, specLocationOf, specLocationTable, List.lookup, h13,
      indexOf_eq_neg_one_iff]
  by_cases h14 : state.kind = "EnumDef"
  · simp [canUseDirective, specLocationOf, specLocationTable, List.lookup, h14,
      indexOf_eq_neg_one_iff]
  by_cases h15 : state.kind = "EnumValue"
  · simp [canUseDirective, specLocationOf, specLocationTable, List.lookup, h15,
      indexOf_eq_neg_one_iff]
  by_cases h16 : state.kind = "InputDef"
  · simp [canUseDirective, specLocationOf, specLocationTable, List.lookup, h16,
      indexOf_eq_neg_one_iff]
  by_cases hv : state.kind = "InputValueDef"
  · cases hp : state.prevState with
    | none => simp [canUseDirective, specLocationOf, hv, hp]
    | some p =>
      by_cases ha : p.kind = "ArgumentsDef"
      · simp [canUseDirective, specLocationOf, hv, hp, ha, specInputValueDefTable,
          List.lookup, indexOf_eq_neg_one_iff]
      by_cases hb : p.kind = "InputDef"
      · simp [canUseDirective, specLocationOf, hv, hp, hb, specInputValueDefTable,
          List.lookup, indexOf_eq_neg_one_iff]
      simp [canUseDirective, specLocationOf, hv, hp, specInputValueDefTable,
          List.lookup, ha, hb, beq_false_of_ne ha, beq_false_of_ne hb]
  simp [canUseDirective, specLocationOf, specLocationTable, List.lookup, hv, h0, h1, h2, h3, h4, h5, h6, h7, h8, h9, h10, h11, h12, h13, h14, h15, h16,
    beq_false_of_ne h0,
    beq_false_of_ne h1,
    beq_false_of_ne h2,
    beq_false_of_ne h3,
    beq_false_of_ne h4,
    beq_false_of_ne h5,
    beq_false_of_ne h6,
    beq_false_of_ne h7,
    beq_false_of_ne h8,
    beq_false_of_ne h9,
    beq_false_of_ne h10,
    beq_false_of_ne h11,
    beq_false_of_ne h12,
    beq_false_of_ne h13,
    beq_false_of_ne h14,
    beq_false_of_ne h15,
    beq_false_of_ne h16]

theorem filterThrowing_ok {α : Type} (f : α → Except JsError Bool) (g : α → Bool)
    (h : ∀ x, f x = .ok (g x)) (xs : List α) :
    filterThrowing f xs = .ok (xs.filter g) := by
  induction xs with
  | nil => rfl
  | cons x xs ih =>
    simp only [filterThrowing, h x, ih, List.filter_cons]

/-! ## The directive location matcher -/

/-- C1: for every enclosing state record and every directive, `canUseDirective`
returns, and it returns `true` if and only if the location table (kind, and for
`InputValueDef` the kind of `prevState`) has a location for the state and that
location is a member of `directive.locations`. -/
theorem canUseDirective_iff_locationTable (state : State) (directive : Directive) :
    (canUseDirective (some state) directive = .ok true ∨
      canUseDirective (some state) directive = .ok false) ∧
    (canUseDirective (some state) directive = .ok true ↔
      ∃ L, specLocationOf state = some L ∧ L ∈ directive.locations) := by
  obtain ⟨b, hb, hiff⟩ := canUseDirective_eq_table state directive
  rw [hb]
  refine ⟨by cases b <;> simp, ?_⟩
  rw [← hiff]
  constructor
  · intro h; injection h
  · intro h; rw [h]

/-! ## Reduction of the dispatcher at each position -/

section DispatcherLemmas

variable {T R : Type}

theorem filterThrowing_cases {α : Type} (f : α → Except JsError Bool) (xs : List α) :
    (∃ r, filterThrowing f xs = .ok r) ∨ filterThrowing f xs = .error .typeError := by
  cases h : filterThrowing f xs with
  | ok r => exact Or.inl ⟨r, rfl⟩
  | error e => cases e; exact Or.inr rfl

/-- A filter whose callback returns on every element returns the elements on
which the callback returns `true`. -/
theorem filterThrowing_of_returns {α : Type} (f : α → Except JsError Bool) (xs : List α)
    (h : ∀ x ∈ xs, ∀ e, f x ≠ .error e) :
    filterThrowing f xs = .ok (xs.filter (fun x => decide (f x = .ok true))) := by
  induction xs with
  | nil => rfl
  | cons x xs ih =>
    have ih2 := ih (fun y hy => h y (List.mem_cons_of_mem _ hy))
    have hx := h x (List.mem_cons_self _ _)
    cases hfx : f x with
    | error e => exact absurd hfx (hx e)
    | ok b =>
      simp only [filterThrowing, hfx, ih2, List.filter_cons]
      cases b <;> simp

/-- A filter that returns has a callback that returned on every element, and
returns the elements on which it returned `true`. -/
theorem filterThrowing_eq_ok {α : Type} (f : α → Except JsError Bool) (xs r : List α)
    (h : filterThrowing f xs = .ok r) :
    r = xs.filter (fun x => decide (f x = .ok true)) := by
  induction xs generalizing r with
  | nil =>
    simp only [filterThrowing, Except.ok.injEq] at h
    subst h
    rfl
  | cons x xs ih =>
    cases hfx : f x with
    | error e => simp [filterThrowing, hfx] at h
    | ok b =>
      cases hrest : filterThrowing f xs with
      | error e => simp [filterThrowing, hfx, hrest] at h
      | ok rest =>
        have hr := ih rest hrest
        simp only [filterThrowing, hfx, hrest, Except.ok.injEq] at h
        subst h
        rw [hr, List.filter_cons]
        cases b <;> simp [hfx]

/-- The dispatcher at a fragment-spread position: the filter of lines 194-203
over the discovered fragments, and `hintList` on what it keeps. -/
theorem getHintsAtPosition_fragmentSpread [DecidableEq T] (lib : GraphQL T)
    (c : Collaborators T R) (schema : Schema T) (sourceText : String) (cursor : Cursor)
    (token : Token) (state : State)
    (heff : effectiveState token = some state) (hk : state.kind = "FragmentSpread")
    (hs : state.step = 1) :
    getHintsAtPosition lib c schema sourceText cursor token =
      Except.map
        (fun relevantFrags =>
          some (c.hintList cursor token (relevantFrags.map (fragHint schema.getTypeMap))))
        (filterThrowing
          (isRelevantFrag lib schema (c.getTypeInfo schema state) schema.getTypeMap
            (getDefinitionState token.state))
          (getFragmentDefinitions c.runParser sourceText)) := by
  simp only [getHintsAtPosition, heff, definitionKindsRule, fieldNamesRule, argumentNamesRule,
    inputObjectFieldsRule, inputValuesRule, typeConditionRule, fragmentSpreadRule,
    isDocument, isFieldNames, isArgumentNames, isInputObjectFields, isInputValues,
    isTypeCondition, isFragmentSpread, hk, hs]
  cases filterThrowing
      (isRelevantFrag lib schema (c.getTypeInfo schema state) schema.getTypeMap
        (getDefinitionState token.state))
      (getFragmentDefinitions c.runParser sourceText) with
  | error e => simp [orNext, Except.map]
  | ok r => simp [orNext, Except.map]

theorem isEnclosingFragment_iff (defState : Option State) (frag : FragmentDefinitionNode) :
    isEnclosingFragment defState frag = true ↔
      ∃ d, defState = some d ∧ d.kind = "FragmentDefinition" ∧
        d.name = some frag.name.value := by
  cases defState with
  | none => simp [isEnclosingFragment]
  | some d => simp [isEnclosingFragment]

/-- A fragment passes the filter exactly when its declared type is in the type
map, it is not the enclosing fragment definition, and `doTypesOverlap` returns
`true` for the parent type and its type. -/
theorem isRelevantFrag_iff (lib : GraphQL T) (schema : Schema T) (typeInfo : TypeInfo T)
    (typeMap : ObjMap T) (defState : Option State) (frag : FragmentDefinitionNode) :
    isRelevantFrag lib schema typeInfo typeMap defState frag = .ok true ↔
      (∃ fragType, typeMap.get frag.typeCondition.name.value = some fragType ∧
        lib.doTypesOverlap schema typeInfo.parentType fragType = .ok true) ∧
      ¬ (∃ d, defState = some d ∧ d.kind = "FragmentDefinition" ∧
          d.name = some frag.name.value) := by
  rw [← isEnclosingFragment_iff]
  unfold isRelevantFrag
  cases hget : typeMap.get frag.typeCondition.name.value with
  | none => simp
  | some fragType =>
    cases henc : isEnclosingFragment defState frag <;> simp

/-- The callback of the filter returns wherever `doTypesOverlap` does. -/
theorem isRelevantFrag_returns (lib : GraphQL T) (schema : Schema T) (typeInfo : TypeInfo T)
    (typeMap : ObjMap T) (defState : Option State) (frag : FragmentDefinitionNode)
    (hret : ∀ fragType, typeMap.get frag.typeCondition.name.value = some fragType →
      ∀ e, lib.doTypesOverlap schema typeInfo.parentType fragType ≠ .error e) :
    ∀ e, isRelevantFrag lib schema typeInfo typeMap defState frag ≠ .error e := by
  intro e
  unfold isRelevantFrag
  cases hget : typeMap.get frag.typeCondition.name.value with
  | none => simp
  | some fragType =>
    cases henc : isEnclosingFragment defState frag
    · simpa using hret fragType hget e
    · simp

/-- At a fragment-spread position the dispatcher returns a candidate list or
throws. -/
theorem candidateList_fragmentSpread_cases [DecidableEq T] (lib : GraphQL T)
    (getTypeInfo : Schema T → State → TypeInfo T) (runParser : String → List State)
    (schema : Schema T) (sourceText : String) (cursor : Cursor) (token : Token)
    (state : State) (heff : effectiveState token = some state)
    (hk : state.kind = "FragmentSpread") (hs : state.step = 1) :
    (∃ hints, candidateList lib getTypeInfo runParser schema sourceText cursor token =
      .ok (some hints)) ∨
    candidateList lib getTypeInfo runParser schema sourceText cursor token =
      .error .typeError := by
  unfold candidateList
  rw [getHintsAtPosition_fragmentSpread lib _ schema sourceText cursor token state heff hk hs]
  rcases filterThrowing_cases
    (isRelevantFrag lib schema (getTypeInfo schema state) schema.getTypeMap
      (getDefinitionState token.state))
    (getFragmentDefinitions runParser sourceText) with ⟨r, hr⟩ | herr
  · exact Or.inl ⟨_, by rw [hr]; rfl⟩
  · exact Or.inr (by rw [herr]; rfl)

/-- A candidate list returned at a fragment-spread position is made of the
discovered fragments that pass the filter, in order. -/
theorem candidateList_fragmentSpread_eq [DecidableEq T] (lib : GraphQL T)
    (getTypeInfo : Schema T → State → TypeInfo T) (runParser : String → List State)
    (schema : Schema T) (sourceText : String) (cursor : Cursor) (token : Token)
    (state : State) (heff : effectiveState token = some state)
    (hk : state.kind = "FragmentSpread") (hs : state.step = 1) (hints : List (Hint T))
    (h : candidateList lib getTypeInfo runParser schema sourceText cursor token =
      .ok (some hints)) :
    hints = ((getFragmentDefinitions runParser sourceText).filter
      (fun frag => decide (isRelevantFrag lib schema (getTypeInfo schema state)
        schema.getTypeMap (getDefinitionState token.state) frag = .ok true))).map
      (fragHint schema.getTypeMap) := by
  unfold candidateList at h
  rw [getHintsAtPosition_fragmentSpread lib _ schema sourceText cursor token state heff hk hs]
    at h
  cases hf : filterThrowing
      (isRelevantFrag lib schema (getTypeInfo schema state) schema.getTypeMap
        (getDefinitionState token.state))
      (getFragmentDefinitions runParser sourceText) with
  | error e => rw [hf] at h; cases h
  | ok r =>
    rw [hf] at h
    simp only [Except.map, Except.ok.injEq, Option.some.injEq] at h
    rw [← h, filterThrowing_eq_ok _ _ r hf]

/-- Where `doTypesOverlap` returns on the types of the discovered fragments, the
dispatcher returns a candidate list at a fragment-spread position. -/
theorem candidateList_fragmentSpread_returns [DecidableEq T] (lib : GraphQL T)
    (getTypeInfo : Schema T → State → TypeInfo T) (runParser : String → List State)
    (schema : Schema T) (sourceText : String) (cursor : Cursor) (token : Token)
    (state : State) (heff : effectiveState token = some state)
    (hk : state.kind = "FragmentSpread") (hs : state.step = 1)
    (hret : ∀ frag ∈ getFragmentDefinitions runParser sourceText, ∀ fragType,
      schema.getTypeMap.get frag.typeCondition.name.value = some fragType →
      ∀ e, lib.doTypesOverlap schema (getTypeInfo schema state).parentType fragType ≠
        .error e) :
    candidateList lib getTypeInfo runParser schema sourceText cursor token =
      .ok (some (((getFragmentDefinitions runParser sourceText).filter
        (fun frag => decide (isRelevantFrag lib schema (getTypeInfo schema state)
          schema.getTypeMap (getDefinitionState token.state) frag = .ok true))).map
        (fragHint schema.getTypeMap))) := by
  unfold candidateList
  rw [getHintsAtPosition_fragmentSpread lib _ schema sourceText cursor token state heff hk hs,
    filterThrowing_of_returns _ _
      (fun frag hfrag => isRelevantFrag_returns lib schema _ _ _ frag (hret frag hfrag))]
  rfl

end DispatcherLemmas

/-! ## Fragment spreads -/

/-- In the fixture `doTypesOverlap` returns whenever the parent type is resolved,
as it is, to `Pet`, by the resolver `Fixture.getTypeInfo`. -/
theorem fixture_doTypesOverlap_returns (state : State) (fragType : Fixture.TypeObj)
    (e : JsError) :
    Fixture.lib.doTypesOverlap Fixture.schema
      (Fixture.getTypeInfo Fixture.schema state).parentType fragType ≠ .error e := by
  intro h
  cases h

/-- C4: at a fragment-spread position (effective state of kind `FragmentSpread`
at step 1) the dispatcher returns a candidate list or throws; it returns one
when `doTypesOverlap` returns on the types of the discovered fragments; and no
candidate list it returns has a candidate with the name of the fragment
definition that encloses the cursor, the state of kind `FragmentDefinition`
found by `getDefinitionState`. -/
theorem fragmentSpread_excludes_enclosing_definition {T : Type} [DecidableEq T]
    (lib : GraphQL T) (getTypeInfo : Schema T → State → TypeInfo T)
    (runParser : String → List State) (schema : Schema T) (sourceText : String)
    (cursor : Cursor) (token : Token) (state : State)
    (heff : effectiveState token = some state) (hk : state.kind = "FragmentSpread")
    (hs : state.step = 1) :
    ((∃ hints, candidateList lib getTypeInfo runParser schema sourceText cursor token =
        .ok (some hints)) ∨
      candidateList lib getTypeInfo runParser schema sourceText cursor token =
        .error .typeError) ∧
    ((∀ frag ∈ getFragmentDefinitions runParser sourceText, ∀ fragType,
        schema.getTypeMap.get frag.typeCondition.name.value = some fragType →
        ∀ e, lib.doTypesOverlap schema (getTypeInfo schema state).parentType fragType ≠
          .error e) →
      ∃ hints, candidateList lib getTypeInfo runParser schema sourceText cursor token =
        .ok (some hints)) ∧
    (∀ hints, candidateList lib getTypeInfo runParser schema sourceText cursor token =
        .ok (some hints) →
      ∀ defState, getDefinitionState token.state = some defState →
        defState.kind = "FragmentDefinition" →
        ∀ hint ∈ hints, some hint.text ≠ defState.name) := by
  refine ⟨candidateList_fragmentSpread_cases lib getTypeInfo runParser schema sourceText
    cursor token state heff hk hs, ?_, ?_⟩
  · intro hret
    exact ⟨_, candidateList_fragmentSpread_returns lib getTypeInfo runParser schema sourceText
      cursor token state heff hk hs hret⟩
  · intro hints hlist defState hdef hkind hint hmem hname
    rw [candidateList_fragmentSpread_eq lib getTypeInfo runParser schema sourceText cursor
      token state heff hk hs hints hlist] at hmem
    simp only [List.mem_map, List.mem_filter, decide_eq_true_eq] at hmem
    obtain ⟨frag, ⟨_, hrel⟩, rfl⟩ := hmem
    rw [isRelevantFrag_iff] at hrel
    exact hrel.2 ⟨defState, hdef, hkind, hname.symm⟩

/-- A witness of C4: a spread typed inside `fragment PetFields on Pet`. -/
theorem fragmentSpread_excludes_enclosing_definition_witness :
    ∃ hints, candidateList Fixture.lib Fixture.getTypeInfo Fixture.runParser Fixture.schema
        "fragment PetFields on Pet \x7b ..." Fixture.cursor
        ⟨"...", 2, 5, Fixture.spreadInPetFields⟩ = .ok (some hints) ∧
      ∀ defState, getDefinitionState (Token.state ⟨"...", 2, 5, Fixture.spreadInPetFields⟩) =
          some defState →
        defState.kind = "FragmentDefinition" →
        ∀ hint ∈ hints, some hint.text ≠ defState.name := by
  have h := fragmentSpread_excludes_enclosing_definition Fixture.lib Fixture.getTypeInfo
    Fixture.runParser Fixture.schema "fragment PetFields on Pet \x7b ..." Fixture.cursor
    ⟨"...", 2, 5, Fixture.spreadInPetFields⟩ Fixture.spreadInPetFields
    (by decide) (by decide) (by decide)
  obtain ⟨hints, hlist⟩ := h.2.1 (fun _ _ fragType _ e => fixture_doTypesOverlap_returns _ fragType e)
  exact ⟨hints, hlist, h.2.2 hints hlist⟩

/-- C5: at a fragment-spread position the dispatcher returns a candidate list or
throws, and returns one when `doTypesOverlap` returns on the types of the
discovered fragments. A candidate list it returns is made, in order, of a
subsequence of the fragments the document scan discovered; each fragment in it
has a declared type that is in the schema's type map and overlaps the parent
type under `doTypesOverlap`, and a discovered fragment whose declared type is
absent from the type map or does not overlap the parent type is not in it. -/
theorem fragmentSpread_candidates_sublist {T : Type} [DecidableEq T]
    (lib : GraphQL T) (getTypeInfo : Schema T → State → TypeInfo T)
    (runParser : String → List State) (schema : Schema T) (sourceText : String)
    (cursor : Cursor) (token : Token) (state : State)
    (heff : effectiveState token = some state) (hk : state.kind = "FragmentSpread")
    (hs : state.step = 1) :
    ((∃ hints, candidateList lib getTypeInfo runParser schema sourceText cursor token =
        .ok (some hints)) ∨
      candidateList lib getTypeInfo runParser schema sourceText cursor token =
        .error .typeError) ∧
    ((∀ frag ∈ getFragmentDefinitions runParser sourceText, ∀ fragType,
        schema.getTypeMap.get frag.typeCondition.name.value = some fragType →
        ∀ e, lib.doTypesOverlap schema (getTypeInfo schema state).parentType fragType ≠
          .error e) →
      ∃ hints, candidateList lib getTypeInfo runParser schema sourceText cursor token =
        .ok (some hints)) ∧
    (∀ hints, candidateList lib getTypeInfo runParser schema sourceText cursor token =
        .ok (some hints) →
      ∃ relevantFrags : List FragmentDefinitionNode,
        hints = relevantFrags.map (fragHint schema.getTypeMap) ∧
        relevantFrags.Sublist (getFragmentDefinitions runParser sourceText) ∧
        (∀ frag ∈ relevantFrags, ∃ fragType,
          schema.getTypeMap.get frag.typeCondition.name.value = some fragType ∧
          lib.doTypesOverlap schema (getTypeInfo schema state).parentType fragType =
            .ok true) ∧
        (∀ frag ∈ getFragmentDefinitions runParser sourceText,
          (schema.getTypeMap.get frag.typeCondition.name.value = none ∨
            ∃ fragType,
              schema.getTypeMap.get frag.typeCondition.name.value = some fragType ∧
              lib.doTypesOverlap schema (getTypeInfo schema state).parentType fragType =
                .ok false) →
          frag ∉ relevantFrags)) := by
  refine ⟨candidateList_fragmentSpread_cases lib getTypeInfo runParser schema sourceText
    cursor token state heff hk hs, ?_, ?_⟩
  · intro hret
    exact ⟨_, candidateList_fragmentSpread_returns lib getTypeInfo runParser schema sourceText
      cursor token state heff hk hs hret⟩
  · intro hints hlist
    refine ⟨_, candidateList_fragmentSpread_eq lib getTypeInfo runParser schema sourceText
      cursor token state heff hk hs hints hlist, List.filter_sublist _, ?_, ?_⟩
    · intro frag hmem
      rw [List.mem_filter, decide_eq_true_eq, isRelevantFrag_iff] at hmem
      exact hmem.2.1
    · intro frag _ hout hmem
      rw [List.mem_filter, decide_eq_true_eq, isRelevantFrag_iff] at hmem
      obtain ⟨fragType, hget, hover⟩ := hmem.2.1
      rcases hout with hnone | ⟨fragType2, hget2, hover2⟩
      · rw [hnone] at hget; cases hget
      · rw [hget2] at hget; cases hget; rw [hover] at hover2; cases hover2

/-- A witness of C5: a spread typed inside `fragment PetFields on Pet`. -/
theorem fragmentSpread_candidates_sublist_witness :
    ∃ hints, candidateList Fixture.lib Fixture.getTypeInfo Fixture.runParser Fixture.schema
        "fragment PetFields on Pet \x7b ..." Fixture.cursor
        ⟨"...", 2, 5, Fixture.spreadInPetFields⟩ = .ok (some hints) ∧
      ∃ relevantFrags : List FragmentDefinitionNode,
        hints = relevantFrags.map (fragHint Fixture.schema.getTypeMap) ∧
        relevantFrags.Sublist
          (getFragmentDefinitions Fixture.runParser "fragment PetFields on Pet \x7b ...") ∧
        (∀ frag ∈ relevantFrags, ∃ fragType,
          Fixture.schema.getTypeMap.get frag.typeCondition.name.value = some fragType ∧
          Fixture.lib.doTypesOverlap Fixture.schema
            (Fixture.getTypeInfo Fixture.schema Fixture.spreadInPetFields).parentType
            fragType = .ok true) ∧
        (∀ frag ∈ getFragmentDefinitions Fixture.runParser
            "fragment PetFields on Pet \x7b ...",
          (Fixture.schema.getTypeMap.get frag.typeCondition.name.value = none ∨
            ∃ fragType,
              Fixture.schema.getTypeMap.get frag.typeCondition.name.value = some fragType ∧
              Fixture.lib.doTypesOverlap Fixture.schema
                (Fixture.getTypeInfo Fixture.schema Fixture.spreadInPetFields).parentType
                fragType = .ok false) →
          frag ∉ relevantFrags) := by
  have h := fragmentSpread_candidates_sublist Fixture.lib Fixture.getTypeInfo
    Fixture.runParser Fixture.schema "fragment PetFields on Pet \x7b ..." Fixture.cursor
    ⟨"...", 2, 5, Fixture.spreadInPetFields⟩ Fixture.spreadInPetFields
    (by decide) (by decide) (by decide)
  obtain ⟨hints, hlist⟩ := h.2.1 (fun _ _ fragType _ e => fixture_doTypesOverlap_returns _ fragType e)
  exact ⟨hints, hlist, h.2.2 hints hlist⟩

/-- The candidate list of the fixture's spread inside `fragment PetFields on
Pet`: of the four completed fragments of the scan only `DogFields` is offered.
Where no parent type is resolved and the scan has a fragment on the interface
`Pet`, the dispatcher throws. -/
theorem fixture_fragmentSpread_candidates :
    candidateList Fixture.lib Fixture.getTypeInfo Fixture.runParser Fixture.schema
        "fragment PetFields on Pet \x7b ..." Fixture.cursor
        ⟨"...", 2, 5, Fixture.spreadInPetFields⟩ =
      .ok (some [{ text := "DogFields", type := some Fixture.dogT,
                   description := some "fragment DogFields on Dog" }]) ∧
    candidateList Fixture.lib Fixture.getNoTypeInfo Fixture.runParser Fixture.schema
        "\x7b ..." Fixture.cursor ⟨"...", 2, 5, Fixture.spreadInQuery⟩ =
      .error .typeError := by
  decide

/-! ## Directives -/

/-- Where the location table has no row for the enclosing state, no directive
can be used. -/
theorem canUseDirective_false_of_no_location (enclosing : State)
    (htable : specLocationOf enclosing = none) (directive : Directive) :
    canUseDirective (some enclosing) directive = .ok false := by
  obtain ⟨b, hb, hiff⟩ := canUseDirective_eq_table enclosing directive
  cases b with
  | false => exact hb
  | true =>
    obtain ⟨L, hL, _⟩ := hiff.mp rfl
    rw [htable] at hL
    cases hL

/-- At a directive position the dispatcher returns what the directive rule
builds. -/
theorem getHintsAtPosition_directive {T R : Type} [DecidableEq T] (lib : GraphQL T)
    (c : Collaborators T R) (schema : Schema T) (sourceText : String) (cursor : Cursor)
    (token : Token) (state : State)
    (heff : effectiveState token = some state) (hk : state.kind = "Directive") :
    getHintsAtPosition lib c schema sourceText cursor token =
      directiveRule c schema cursor token state := by
  simp [getHintsAtPosition, heff, orNext, definitionKindsRule, fieldNamesRule, argumentNamesRule,
    inputObjectFieldsRule, inputValuesRule, typeConditionRule, fragmentSpreadRule,
    variableDefinitionTypesRule, isDocument, isFieldNames, isArgumentNames,
    isInputObjectFields, isInputValues, isTypeCondition, isFragmentSpread,
    isVariableDefinitionTypes, hk]

/-- C8: for an effective state of kind `Directive` whose enclosing state
(`state.prevState`) has no row in the location table (its kind is not in the
table, or it is an `InputValueDef` whose own `prevState` is absent or of a kind
other than `ArgumentsDef` and `InputDef`), `canUseDirective` is false for every
directive and the directive candidate list is empty. -/
theorem directive_candidates_empty_off_table {T : Type} [DecidableEq T]
    (lib : GraphQL T) (getTypeInfo : Schema T → State → TypeInfo T)
    (runParser : String → List State) (schema : Schema T) (sourceText : String)
    (cursor : Cursor) (token : Token) (state enclosing : State)
    (heff : effectiveState token = some state) (hk : state.kind = "Directive")
    (hprev : state.prevState = some enclosing) (htable : specLocationOf enclosing = none) :
    (∀ directive, canUseDirective (some enclosing) directive = .ok false) ∧
    candidateList lib getTypeInfo runParser schema sourceText cursor token = .ok (some []) := by
  refine ⟨canUseDirective_false_of_no_location enclosing htable, ?_⟩
  unfold candidateList
  rw [getHintsAtPosition_directive lib _ schema sourceText cursor token state heff hk]
  simp [directiveRule, isDirective, hk, hprev,
    filterThrowing_ok _ (fun _ => false)
      (canUseDirective_false_of_no_location enclosing htable)]

/-- A witness of C8: a directive typed on a variable definition, and one typed
on an `InputValueDef` that has no enclosing state. -/
theorem directive_candidates_empty_off_table_witness :
    ((∀ directive,
        canUseDirective (some (.root "VariableDefinition" 3 none none)) directive = .ok false) ∧
      candidateList Fixture.lib Fixture.getTypeInfo Fixture.runParser Fixture.schema
        "query ($v: Int @" Fixture.cursor
        ⟨"@", 15, 16, .node "Directive" 1 none none (.root "VariableDefinition" 3 none none)⟩ =
        .ok (some [])) ∧
    ((∀ directive,
        canUseDirective (some (.root "InputValueDef" 3 none none)) directive = .ok false) ∧
      candidateList Fixture.lib Fixture.getTypeInfo Fixture.runParser Fixture.schema
        "" Fixture.cursor
        ⟨"@", 15, 16, .node "Directive" 1 none none (.root "InputValueDef" 3 none none)⟩ =
        .ok (some [])) :=
  ⟨directive_candidates_empty_off_table Fixture.lib Fixture.getTypeInfo Fixture.runParser
      Fixture.schema _ Fixture.cursor _ (.node "Directive" 1 none none
        (.root "VariableDefinition" 3 none none)) (.root "VariableDefinition" 3 none none)
      (by decide) (by decide) (by decide) (by decide),
   directive_candidates_empty_off_table Fixture.lib Fixture.getTypeInfo Fixture.runParser
      Fixture.schema _ Fixture.cursor _ (.node "Directive" 1 none none
        (.root "InputValueDef" 3 none none)) (.root "InputValueDef" 3 none none)
      (by decide) (by decide) (by decide) (by decide)⟩

/-! ## Positions without candidates -/

/-- C9: `getHintsAtPosition` returns `undefined`, whatever `hintList` is, for an
effective state that matches none of the nine dispatch conditions, and when a
condition matches but its type lookup misses: a field-name position without a
parent type, an argument-name position without `argDefs`, an input-object-field
position without `objectFieldDefs`, an input-value position whose named input
type is neither an enum nor the Boolean scalar. -/
theorem getHintsAtPosition_undefined {T R : Type} [DecidableEq T] (lib : GraphQL T)
    (c : Collaborators T R) (schema : Schema T) (sourceText : String) (cursor : Cursor)
    (token : Token) (state : State) (heff : effectiveState token = some state)
    (hmiss :
      (isDocument state = false ∧ isFieldNames state = false ∧ isArgumentNames state = false ∧
        isInputObjectFields state = false ∧ isInputValues state = false ∧
        isTypeCondition state = .ok false ∧ isFragmentSpread state = false ∧
        isVariableDefinitionTypes state = .ok false ∧ isDirective state = false) ∨
      ((state.kind = "SelectionSet" ∨ state.kind = "Field" ∨ state.kind = "AliasedField") ∧
        (c.getTypeInfo schema state).parentType = none) ∨
      ((state.kind = "Arguments" ∨ (state.kind = "Argument" ∧ state.step = 0)) ∧
        (c.getTypeInfo schema state).argDefs = none) ∨
      ((state.kind = "ObjectValue" ∨ (state.kind = "ObjectField" ∧ state.step = 0)) ∧
        (c.getTypeInfo schema state).objectFieldDefs = none) ∨
      ((state.kind = "EnumValue" ∨ (state.kind = "ListValue" ∧ state.step = 1) ∨
          (state.kind = "ObjectField" ∧ state.step = 2) ∨
          (state.kind = "Argument" ∧ state.step = 2)) ∧
        (lib.getNamedType (c.getTypeInfo schema state).inputType = none ∨
          ∃ namedInputType,
            lib.getNamedType (c.getTypeInfo schema state).inputType = some namedInputType ∧
            lib.isEnumType namedInputType = false ∧ namedInputType ≠ lib.GraphQLBoolean))) :
    getHintsAtPosition lib c schema sourceText cursor token = .ok none := by
  rcases hmiss with ⟨h1, h2, h3, h4, h5, h6, h7, h8, h9⟩ | ⟨hk, hty⟩ | ⟨hk, hty⟩ | ⟨hk, hty⟩ |
    ⟨hk, hty⟩
  · simp only [getHintsAtPosition, heff, orNext, definitionKindsRule, fieldNamesRule,
      argumentNamesRule, inputObjectFieldsRule, inputValuesRule, typeConditionRule,
      fragmentSpreadRule, variableDefinitionTypesRule, directiveRule, h1, h2, h3, h4, h5, h6,
      h7, h8, h9]
    simp
  · rcases hk with hk | hk | hk <;>
    simp [getHintsAtPosition, heff, orNext, definitionKindsRule, fieldNamesRule,
      argumentNamesRule, inputObjectFieldsRule, inputValuesRule, typeConditionRule,
      fragmentSpreadRule, variableDefinitionTypesRule, directiveRule, isDocument, isFieldNames,
      isArgumentNames, isInputObjectFields, isInputValues, isTypeCondition, isFragmentSpread,
      isVariableDefinitionTypes, isDirective, hk, hty]
  · rcases hk with hk | ⟨hk, hs⟩ <;>
    simp [getHintsAtPosition, heff, orNext, definitionKindsRule, fieldNamesRule,
      argumentNamesRule, inputObjectFieldsRule, inputValuesRule, typeConditionRule,
      fragmentSpreadRule, variableDefinitionTypesRule, directiveRule, isDocument, isFieldNames,
      isArgumentNames, isInputObjectFields, isInputValues, isTypeCondition, isFragmentSpread,
      isVariableDefinitionTypes, isDirective, hk, hty, *]
  · rcases hk with hk | ⟨hk, hs⟩ <;>
    simp [getHintsAtPosition, heff, orNext, definitionKindsRule, fieldNamesRule,
      argumentNamesRule, inputObjectFieldsRule, inputValuesRule, typeConditionRule,
      fragmentSpreadRule, variableDefinitionTypesRule, directiveRule, isDocument, isFieldNames,
      isArgumentNames, isInputObjectFields, isInputValues, isTypeCondition, isFragmentSpread,
      isVariableDefinitionTypes, isDirective, hk, hty, *]
  · rcases hty with hty | ⟨t, hty, henum, hbool⟩
    · rcases hk with hk | ⟨hk, hs⟩ | ⟨hk, hs⟩ | ⟨hk, hs⟩ <;>
      simp [getHintsAtPosition, heff, orNext, definitionKindsRule, fieldNamesRule,
      argumentNamesRule, inputObjectFieldsRule, inputValuesRule, typeConditionRule,
      fragmentSpreadRule, variableDefinitionTypesRule, directiveRule, isDocument, isFieldNames,
      isArgumentNames, isInputObjectFields, isInputValues, isTypeCondition, isFragmentSpread,
      isVariableDefinitionTypes, isDirective, hk, hty, *]
    · rcases hk with hk | ⟨hk, hs⟩ | ⟨hk, hs⟩ | ⟨hk, hs⟩ <;>
      simp [getHintsAtPosition, heff, orNext, definitionKindsRule, fieldNamesRule,
      argumentNamesRule, inputObjectFieldsRule, inputValuesRule, typeConditionRule,
      fragmentSpreadRule, variableDefinitionTypesRule, directiveRule, isDocument, isFieldNames,
      isArgumentNames, isInputObjectFields, isInputValues, isTypeCondition, isFragmentSpread,
      isVariableDefinitionTypes, isDirective, hk, hty, henum, hbool, *]

/-- A witness of C9: a state of kind `Selection`, which no condition matches;
a `Field` without a parent type; an `Argument` at step 2 whose input type is
`String`. -/
theorem getHintsAtPosition_undefined_witness :
    getHintsAtPosition Fixture.lib Fixture.blind Fixture.schema "\x7b a" Fixture.cursor
        ⟨"a", 2, 3, .node "Selection" 0 none none (.root "Document" 0 none none)⟩ = .ok none ∧
    getHintsAtPosition Fixture.lib Fixture.blind Fixture.schema "\x7b a" Fixture.cursor
        ⟨"a", 2, 3, .node "Field" 0 none none (.root "Document" 0 none none)⟩ = .ok none ∧
    getHintsAtPosition Fixture.lib Fixture.stringly Fixture.schema "\x7b a(b: " Fixture.cursor
        ⟨" ", 6, 7, .node "Argument" 2 none none (.root "Document" 0 none none)⟩ = .ok none :=
  ⟨getHintsAtPosition_undefined Fixture.lib Fixture.blind Fixture.schema _ Fixture.cursor _
      (.node "Selection" 0 none none (.root "Document" 0 none none)) (by decide)
      (Or.inl (by decide)),
   getHintsAtPosition_undefined Fixture.lib Fixture.blind Fixture.schema _ Fixture.cursor _
      (.node "Field" 0 none none (.root "Document" 0 none none)) (by decide)
      (Or.inr (Or.inl (by decide))),
   getHintsAtPosition_undefined Fixture.lib Fixture.stringly Fixture.schema _ Fixture.cursor _
      (.node "Argument" 2 none none (.root "Document" 0 none none)) (by decide)
      (Or.inr (Or.inr (Or.inr (Or.inr ⟨by decide,
        Or.inr ⟨Fixture.stringT, by decide, by decide, by decide⟩⟩))))⟩

/-! ## Mutual exclusion of the dispatch conditions -/

/-- At most one of the nine dispatch conditions holds on a state. -/
theorem dispatchConditions_count_le_one (state : State) :
    (dispatchConditions state).count (.ok true) ≤ 1 := by
  have hstep : state.step = 0 ∨ state.step = 1 ∨ state.step = 2 ∨
      (state.step ≠ 0 ∧ state.step ≠ 1 ∧ state.step ≠ 2) := by omega
  by_cases h0 : state.kind = "Document"
  · rcases hstep with hs | hs | hs | ⟨hs0, hs1, hs2⟩ <;>
    simp [dispatchConditions, isDocument, isFieldNames, isArgumentNames, isInputObjectFields,
      isInputValues, isTypeCondition, isFragmentSpread, isVariableDefinitionTypes, isDirective, h0, *]
  by_cases h1 : state.kind = "SelectionSet"
  · rcases hstep with hs | hs | hs | ⟨hs0, hs1, hs2⟩ <;>
    simp [dispatchConditions, isDocument, isFieldNames, isArgumentNames, isInputObjectFields,
      isInputValues, isTypeCondition, isFragmentSpread, isVariableDefinitionTypes, isDirective, h1, *]
  by_cases h2 : state.kind = "Field"
  · rcases hstep with hs | hs | hs | ⟨hs0, hs1, hs2⟩ <;>
    simp [dispatchConditions, isDocument, isFieldNames, isArgumentNames, isInputObjectFields,
      isInputValues, isTypeCondition, isFragmentSpread, isVariableDefinitionTypes, isDirective, h2, *]
  by_cases h3 : state.kind = "AliasedField"
  · rcases hstep with hs | hs | hs | ⟨hs0, hs1, hs2⟩ <;>
    simp [dispatchConditions, isDocument, isFieldNames, isArgumentNames, isInputObjectFields,
      isInputValues, isTypeCondition, isFragmentSpread, isVariableDefinitionTypes, isDirective, h3, *]
  by_cases h4 : state.kind = "Arguments"
  · rcases hstep with hs | hs | hs | ⟨hs0, hs1, hs2⟩ <;>
    simp [dispatchConditions, isDocument, isFieldNames, isArgumentNames, isInputObjectFields,
      isInputValues, isTypeCondition, isFragmentSpread, isVariableDefinitionTypes, isDirective, h4, *]
  by_cases h5 : state.kind = "Argument"
  · rcases hstep with hs | hs | hs | ⟨hs0, hs1, hs2⟩ <;>
    simp [dispatchConditions, isDocument, isFieldNames, isArgumentNames, isInputObjectFields,
      isInputValues, isTypeCondition, isFragmentSpread, isVariableDefinitionTypes, isDirective, h5, *]
  by_cases h6 : state.kind = "ObjectValue"
  · rcases hstep with hs | hs | hs | ⟨hs0, hs1, hs2⟩ <;>
    simp [dispatchConditions, isDocument, isFieldNames, isArgumentNames, isInputObjectFields,
      isInputValues, isTypeCondition, isFragmentSpread, isVariableDefinitionTypes, isDirective, h6, *]
  by_cases h7 : state.kind = "ObjectField"
  · rcases hstep with hs | hs | hs | ⟨hs0, hs1, hs2⟩ <;>
    simp [dispatchConditions, isDocument, isFieldNames, isArgumentNames, isInputObjectFields,
      isInputValues, isTypeCondition, isFragmentSpread, isVariableDefinitionTypes, isDirective, h7, *]
  by_cases h8 : state.kind = "EnumValue"
  · rcases hstep with hs | hs | hs | ⟨hs0, hs1, hs2⟩ <;>
    simp [dispatchConditions, isDocument, isFieldNames, isArgumentNames, isInputObjectFields,
      isInputValues, isTypeCondition, isFragmentSpread, isVariableDefinitionTypes, isDirective, h8, *]
  by_cases h9 : state.kind = "ListValue"
  · rcases hstep with hs | hs | hs | ⟨hs0, hs1, hs2⟩ <;>
    simp [dispatchConditions, isDocument, isFieldNames, isArgumentNames, isInputObjectFields,
      isInputValues, isTypeCondition, isFragmentSpread, isVariableDefinitionTypes, isDirective, h9, *]
  by_cases h10 : state.kind = "TypeCondition"
  · rcases hstep with hs | hs | hs | ⟨hs0, hs1, hs2⟩ <;>
    simp [dispatchConditions, isDocument, isFieldNames, isArgumentNames, isInputObjectFields,
      isInputValues, isTypeCondition, isFragmentSpread, isVariableDefinitionTypes, isDirective, h10, *]
  by_cases h11 : state.kind = "NamedType"
  · cases hp : state.prevState with
    | none => simp [dispatchConditions, isDocument, isFieldNames, isArgumentNames, isInputObjectFields,
      isInputValues, isTypeCondition, isFragmentSpread, isVariableDefinitionTypes, isDirective, h11, hp]
    | some p =>
      by_cases hp1 : p.kind = "TypeCondition"
      · simp [dispatchConditions, isDocument, isFieldNames, isArgumentNames, isInputObjectFields,
      isInputValues, isTypeCondition, isFragmentSpread, isVariableDefinitionTypes, isDirective, h11, hp, hp1]
      by_cases hp2 : p.kind = "VariableDefinition"
      · simp [dispatchConditions, isDocument, isFieldNames, isArgumentNames, isInputObjectFields,
      isInputValues, isTypeCondition, isFragmentSpread, isVariableDefinitionTypes, isDirective, h11, hp, hp2]
      by_cases hp3 : p.kind = "ListType"
      · simp [dispatchConditions, isDocument, isFieldNames, isArgumentNames, isInputObjectFields,
      isInputValues, isTypeCondition, isFragmentSpread, isVariableDefinitionTypes, isDirective, h11, hp, hp3]
      simp [dispatchConditions, isDocument, isFieldNames, isArgumentNames, isInputObjectFields,
      isInputValues, isTypeCondition, isFragmentSpread, isVariableDefinitionTypes, isDirective, h11, hp, hp1, hp2, hp3]
  by_cases h12 : state.kind = "FragmentSpread"
  · rcases hstep with hs | hs | hs | ⟨hs0, hs1, hs2⟩ <;>
    simp [dispatchConditions, isDocument, isFieldNames, isArgumentNames, isInputObjectFields,
      isInputValues, isTypeCondition, isFragmentSpread, isVariableDefinitionTypes, isDirective, h12, *]
  by_cases h13 : state.kind = "VariableDefinition"
  · rcases hstep with hs | hs | hs | ⟨hs0, hs1, hs2⟩ <;>
    simp [dispatchConditions, isDocument, isFieldNames, isArgumentNames, isInputObjectFields,
      isInputValues, isTypeCondition, isFragmentSpread, isVariableDefinitionTypes, isDirective, h13, *]
  by_cases h14 : state.kind = "ListType"
  · rcases hstep with hs | hs | hs | ⟨hs0, hs1, hs2⟩ <;>
    simp [dispatchConditions, isDocument, isFieldNames, isArgumentNames, isInputObjectFields,
      isInputValues, isTypeCondition, isFragmentSpread, isVariableDefinitionTypes, isDirective, h14, *]
  by_cases h15 : state.kind = "Directive"
  · rcases hstep with hs | hs | hs | ⟨hs0, hs1, hs2⟩ <;>
    simp [dispatchConditions, isDocument, isFieldNames, isArgumentNames, isInputObjectFields,
      isInputValues, isTypeCondition, isFragmentSpread, isVariableDefinitionTypes, isDirective, h15, *]
  simp [dispatchConditions, isDocument, isFieldNames, isArgumentNames, isInputObjectFields,
      isInputValues, isTypeCondition, isFragmentSpread, isVariableDefinitionTypes, isDirective, h0, h1, h2, h3, h4, h5, h6, h7, h8, h9, h10, h11, h12, h13, h14, h15]

theorem orNext_none_left {α : Type} (next : Except JsError (Option α)) :
    orNext (.ok none) next = next := rfl

theorem orNext_error {α : Type} (e : JsError) (next : Except JsError (Option α)) :
    orNext (.error e) next = .error e := rfl

theorem orNext_none_right {α : Type} (rule : Except JsError (Option α)) :
    orNext rule (.ok none) = rule := by
  unfold orNext
  split <;> rfl

/-- Rules that all fall through give `undefined`. -/
theorem runRules_all_none {α : Type} (rules : List (Except JsError (Option α)))
    (h : ∀ x ∈ rules, x = .ok none) : runRules rules = .ok none := by
  induction rules with
  | nil => rfl
  | cons r rs ih =>
    have hr : r = .ok none := h r (List.mem_cons_self _ _)
    have := ih (fun x hx => h x (List.mem_cons_of_mem _ hx))
    simp only [runRules, List.foldr_cons] at this ⊢
    rw [this, hr]
    rfl

/-- Rules of which those that do not fall through all give `v`, and one does
not fall through, give `v`. -/
theorem runRules_eq_of_common {α : Type} (v : Except JsError (Option α))
    (rules : List (Except JsError (Option α)))
    (h : ∀ x ∈ rules, x = .ok none ∨ x = v) (hex : ∃ x ∈ rules, x ≠ .ok none) :
    runRules rules = v := by
  induction rules with
  | nil => obtain ⟨x, hx, _⟩ := hex; cases hx
  | cons r rs ih =>
    by_cases hr : r = .ok none
    · subst hr
      have hex2 : ∃ x ∈ rs, x ≠ .ok none := by
        obtain ⟨x, hx, hne⟩ := hex
        rcases List.mem_cons.mp hx with rfl | hx
        · exact absurd rfl hne
        · exact ⟨x, hx, hne⟩
      have := ih (fun x hx => h x (List.mem_cons_of_mem _ hx)) hex2
      simp only [runRules, List.foldr_cons] at this ⊢
      rw [this]
      rfl
    · have hv : r = v := (h r (List.mem_cons_self _ _)).resolve_left hr
      subst hv
      simp only [runRules, List.foldr_cons]
      unfold orNext
      split
      · exact absurd rfl hr
      · rfl

/-- Rules of which those that do not fall through all agree give the same
result in any order. -/
theorem runRules_perm {α : Type} (v : Except JsError (Option α))
    (rules rules2 : List (Except JsError (Option α)))
    (h : ∀ x ∈ rules, x = .ok none ∨ x = v) (hperm : rules2.Perm rules) :
    runRules rules2 = runRules rules := by
  by_cases hex : ∃ x ∈ rules, x ≠ .ok none
  · rw [runRules_eq_of_common v rules h hex]
    apply runRules_eq_of_common v rules2
    · intro x hx; exact h x (hperm.mem_iff.mp hx)
    · obtain ⟨x, hx, hne⟩ := hex
      exact ⟨x, hperm.mem_iff.mpr hx, hne⟩
  · have hall : ∀ x ∈ rules, x = .ok none := by
      intro x hx
      by_contra hne
      exact hex ⟨x, hx, hne⟩
    rw [runRules_all_none rules hall]
    exact runRules_all_none rules2 (fun x hx => hall x (hperm.mem_iff.mp hx))

/-- On a state, every rule of the dispatcher either falls through or gives the
result of the rules run in the order of the source. -/
theorem dispatchRules_common {T R : Type} [DecidableEq T] (lib : GraphQL T)
    (c : Collaborators T R) (schema : Schema T) (sourceText : String) (cursor : Cursor)
    (token : Token) (state : State) :
    ∀ x ∈ dispatchRules lib c schema sourceText cursor token state,
      x = .ok none ∨
      x = runRules (dispatchRules lib c schema sourceText cursor token state) := by
  have hstep : state.step = 0 ∨ state.step = 1 ∨ state.step = 2 ∨
      (state.step ≠ 0 ∧ state.step ≠ 1 ∧ state.step ≠ 2) := by omega
  by_cases h0 : state.kind = "Document"
  · rcases hstep with hs | hs | hs | ⟨hs0, hs1, hs2⟩ <;>
    simp [dispatchRules, runRules, definitionKindsRule, fieldNamesRule, argumentNamesRule,
      inputObjectFieldsRule, inputValuesRule, typeConditionRule, fragmentSpreadRule,
      variableDefinitionTypesRule, directiveRule, isDocument, isFieldNames, isArgumentNames,
      isInputObjectFields, isInputValues, isTypeCondition, isFragmentSpread,
      isVariableDefinitionTypes, isDirective, orNext_none_left, orNext_none_right, orNext_error, h0, *]
  by_cases h1 : state.kind = "SelectionSet"
  · rcases hstep with hs | hs | hs | ⟨hs0, hs1, hs2⟩ <;>
    simp [dispatchRules, runRules, definitionKindsRule, fieldNamesRule, argumentNamesRule,
      inputObjectFieldsRule, inputValuesRule, typeConditionRule, fragmentSpreadRule,
      variableDefinitionTypesRule, directiveRule, isDocument, isFieldNames, isArgumentNames,
      isInputObjectFields, isInputValues, isTypeCondition, isFragmentSpread,
      isVariableDefinitionTypes, isDirective, orNext_none_left, orNext_none_right, orNext_error, h1, *]
  by_cases h2 : state.kind = "Field"
  · rcases hstep with hs | hs | hs | ⟨hs0, hs1, hs2⟩ <;>
    simp [dispatchRules, runRules, definitionKindsRule, fieldNamesRule, argumentNamesRule,
      inputObjectFieldsRule, inputValuesRule, typeConditionRule, fragmentSpreadRule,
      variableDefinitionTypesRule, directiveRule, isDocument, isFieldNames, isArgumentNames,
      isInputObjectFields, isInputValues, isTypeCondition, isFragmentSpread,
      isVariableDefinitionTypes, isDirective, orNext_none_left, orNext_none_right, orNext_error, h2, *]
  by_cases h3 : state.kind = "AliasedField"
  · rcases hstep with hs | hs | hs | ⟨hs0, hs1, hs2⟩ <;>
    simp [dispatchRules, runRules, definitionKindsRule, fieldNamesRule, argumentNamesRule,
      inputObjectFieldsRule, inputValuesRule, typeConditionRule, fragmentSpreadRule,
      variableDefinitionTypesRule, directiveRule, isDocument, isFieldNames, isArgumentNames,
      isInputObjectFields, isInputValues, isTypeCondition, isFragmentSpread,
      isVariableDefinitionTypes, isDirective, orNext_none_left, orNext_none_right, orNext_error, h3, *]
  by_cases h4 : state.kind = "Arguments"
  · rcases hstep with hs | hs | hs | ⟨hs0, hs1, hs2⟩ <;>
    simp [dispatchRules, runRules, definitionKindsRule, fieldNamesRule, argumentNamesRule,
      inputObjectFieldsRule, inputValuesRule, typeConditionRule, fragmentSpreadRule,
      variableDefinitionTypesRule, directiveRule, isDocument, isFieldNames, isArgumentNames,
      isInputObjectFields, isInputValues, isTypeCondition, isFragmentSpread,
      isVariableDefinitionTypes, isDirective, orNext_none_left, orNext_none_right, orNext_error, h4, *]
  by_cases h5 : state.kind = "Argument"
  · rcases hstep with hs | hs | hs | ⟨hs0, hs1, hs2⟩ <;>
    simp [dispatchRules, runRules, definitionKindsRule, fieldNamesRule, argumentNamesRule,
      inputObjectFieldsRule, inputValuesRule, typeConditionRule, fragmentSpreadRule,
      variableDefinitionTypesRule, directiveRule, isDocument, isFieldNames, isArgumentNames,
      isInputObjectFields, isInputValues, isTypeCondition, isFragmentSpread,
      isVariableDefinitionTypes, isDirective, orNext_none_left, orNext_none_right, orNext_error, h5, *]
  by_cases h6 : state.kind = "ObjectValue"
  · rcases hstep with hs | hs | hs | ⟨hs0, hs1, hs2⟩ <;>
    simp [dispatchRules, runRules, definitionKindsRule, fieldNamesRule, argumentNamesRule,
      inputObjectFieldsRule, inputValuesRule, typeConditionRule, fragmentSpreadRule,
      variableDefinitionTypesRule, directiveRule, isDocument, isFieldNames, isArgumentNames,
      isInputObjectFields, isInputValues, isTypeCondition, isFragmentSpread,
      isVariableDefinitionTypes, isDirective, orNext_none_left, orNext_none_right, orNext_error, h6, *]
  by_cases h7 : state.kind = "ObjectField"
  · rcases hstep with hs | hs | hs | ⟨hs0, hs1, hs2⟩ <;>
    simp [dispatchRules, runRules, definitionKindsRule, fieldNamesRule, argumentNamesRule,
      inputObjectFieldsRule, inputValuesRule, typeConditionRule, fragmentSpreadRule,
      variableDefinitionTypesRule, directiveRule, isDocument, isFieldNames, isArgumentNames,
      isInputObjectFields, isInputValues, isTypeCondition, isFragmentSpread,
      isVariableDefinitionTypes, isDirective, orNext_none_left, orNext_none_right, orNext_error, h7, *]
  by_cases h8 : state.kind = "EnumValue"
  · rcases hstep with hs | hs | hs | ⟨hs0, hs1, hs2⟩ <;>
    simp [dispatchRules, runRules, definitionKindsRule, fieldNamesRule, argumentNamesRule,
      inputObjectFieldsRule, inputValuesRule, typeConditionRule, fragmentSpreadRule,
      variableDefinitionTypesRule, directiveRule, isDocument, isFieldNames, isArgumentNames,
      isInputObjectFields, isInputValues, isTypeCondition, isFragmentSpread,
      isVariableDefinitionTypes, isDirective, orNext_none_left, orNext_none_right, orNext_error, h8, *]
  by_cases h9 : state.kind = "ListValue"
  · rcases hstep with hs | hs | hs | ⟨hs0, hs1, hs2⟩ <;>
    simp [dispatchRules, runRules, definitionKindsRule, fieldNamesRule, argumentNamesRule,
      inputObjectFieldsRule, inputValuesRule, typeConditionRule, fragmentSpreadRule,
      variableDefinitionTypesRule, directiveRule, isDocument, isFieldNames, isArgumentNames,
      isInputObjectFields, isInputValues, isTypeCondition, isFragmentSpread,
      isVariableDefinitionTypes, isDirective, orNext_none_left, orNext_none_right, orNext_error, h9, *]
  by_cases h10 : state.kind = "TypeCondition"
  · rcases hstep with hs | hs | hs | ⟨hs0, hs1, hs2⟩ <;>
    simp [dispatchRules, runRules, definitionKindsRule, fieldNamesRule, argumentNamesRule,
      inputObjectFieldsRule, inputValuesRule, typeConditionRule, fragmentSpreadRule,
      variableDefinitionTypesRule, directiveRule, isDocument, isFieldNames, isArgumentNames,
      isInputObjectFields, isInputValues, isTypeCondition, isFragmentSpread,
      isVariableDefinitionTypes, isDirective, orNext_none_left, orNext_none_right, orNext_error, h10, *]
  by_cases h11 : state.kind = "NamedType"
  · cases hp : state.prevState with
    | none => simp [dispatchRules, runRules, definitionKindsRule, fieldNamesRule, argumentNamesRule,
      inputObjectFieldsRule, inputValuesRule, typeConditionRule, fragmentSpreadRule,
      variableDefinitionTypesRule, directiveRule, isDocument, isFieldNames, isArgumentNames,
      isInputObjectFields, isInputValues, isTypeCondition, isFragmentSpread,
      isVariableDefinitionTypes, isDirective, orNext_none_left, orNext_none_right, orNext_error, h11, hp]
    | some p =>
      by_cases hp1 : p.kind = "TypeCondition"
      · simp [dispatchRules, runRules, definitionKindsRule, fieldNamesRule, argumentNamesRule,
      inputObjectFieldsRule, inputValuesRule, typeConditionRule, fragmentSpreadRule,
      variableDefinitionTypesRule, directiveRule, isDocument, isFieldNames, isArgumentNames,
      isInputObjectFields, isInputValues, isTypeCondition, isFragmentSpread,
      isVariableDefinitionTypes, isDirective, orNext_none_left, orNext_none_right, orNext_error, h11, hp, hp1]
      by_cases hp2 : p.kind = "VariableDefinition"
      · simp [dispatchRules, runRules, definitionKindsRule, fieldNamesRule, argumentNamesRule,
      inputObjectFieldsRule, inputValuesRule, typeConditionRule, fragmentSpreadRule,
      variableDefinitionTypesRule, directiveRule, isDocument, isFieldNames, isArgumentNames,
      isInputObjectFields, isInputValues, isTypeCondition, isFragmentSpread,
      isVariableDefinitionTypes, isDirective, orNext_none_left, orNext_none_right, orNext_error, h11, hp, hp2]
      by_cases hp3 : p.kind = "ListType"
      · simp [dispatchRules, runRules, definitionKindsRule, fieldNamesRule, argumentNamesRule,
      inputObjectFieldsRule, inputValuesRule, typeConditionRule, fragmentSpreadRule,
      variableDefinitionTypesRule, directiveRule, isDocument, isFieldNames, isArgumentNames,
      isInputObjectFields, isInputValues, isTypeCondition, isFragmentSpread,
      isVariableDefinitionTypes, isDirective, orNext_none_left, orNext_none_right, orNext_error, h11, hp, hp3]
      simp [dispatchRules, runRules, definitionKindsRule, fieldNamesRule, argumentNamesRule,
      inputObjectFieldsRule, inputValuesRule, typeConditionRule, fragmentSpreadRule,
      variableDefinitionTypesRule, directiveRule, isDocument, isFieldNames, isArgumentNames,
      isInputObjectFields, isInputValues, isTypeCondition, isFragmentSpread,
      isVariableDefinitionTypes, isDirective, orNext_none_left, orNext_none_right, orNext_error, h11, hp, hp1, hp2, hp3]
  by_cases h12 : state.kind = "FragmentSpread"
  · rcases hstep with hs | hs | hs | ⟨hs0, hs1, hs2⟩ <;>
    simp [dispatchRules, runRules, definitionKindsRule, fieldNamesRule, argumentNamesRule,
      inputObjectFieldsRule, inputValuesRule, typeConditionRule, fragmentSpreadRule,
      variableDefinitionTypesRule, directiveRule, isDocument, isFieldNames, isArgumentNames,
      isInputObjectFields, isInputValues, isTypeCondition, isFragmentSpread,
      isVariableDefinitionTypes, isDirective, orNext_none_left, orNext_none_right, orNext_error, h12, *]
  by_cases h13 : state.kind = "VariableDefinition"
  · rcases hstep with hs | hs | hs | ⟨hs0, hs1, hs2⟩ <;>
    simp [dispatchRules, runRules, definitionKindsRule, fieldNamesRule, argumentNamesRule,
      inputObjectFieldsRule, inputValuesRule, typeConditionRule, fragmentSpreadRule,
      variableDefinitionTypesRule, directiveRule, isDocument, isFieldNames, isArgumentNames,
      isInputObjectFields, isInputValues, isTypeCondition, isFragmentSpread,
      isVariableDefinitionTypes, isDirective, orNext_none_left, orNext_none_right, orNext_error, h13, *]
  by_cases h14 : state.kind = "ListType"
  · rcases hstep with hs | hs | hs | ⟨hs0, hs1, hs2⟩ <;>
    simp [dispatchRules, runRules, definitionKindsRule, fieldNamesRule, argumentNamesRule,
      inputObjectFieldsRule, inputValuesRule, typeConditionRule, fragmentSpreadRule,
      variableDefinitionTypesRule, directiveRule, isDocument, isFieldNames, isArgumentNames,
      isInputObjectFields, isInputValues, isTypeCondition, isFragmentSpread,
      isVariableDefinitionTypes, isDirective, orNext_none_left, orNext_none_right, orNext_error, h14, *]
  by_cases h15 : state.kind = "Directive"
  · rcases hstep with hs | hs | hs | ⟨hs0, hs1, hs2⟩ <;>
    simp [dispatchRules, runRules, definitionKindsRule, fieldNamesRule, argumentNamesRule,
      inputObjectFieldsRule, inputValuesRule, typeConditionRule, fragmentSpreadRule,
      variableDefinitionTypesRule, directiveRule, isDocument, isFieldNames, isArgumentNames,
      isInputObjectFields, isInputValues, isTypeCondition, isFragmentSpread,
      isVariableDefinitionTypes, isDirective, orNext_none_left, orNext_none_right, orNext_error, h15, *]
  simp [dispatchRules, runRules, definitionKindsRule, fieldNamesRule, argumentNamesRule,
      inputObjectFieldsRule, inputValuesRule, typeConditionRule, fragmentSpreadRule,
      variableDefinitionTypesRule, directiveRule, isDocument, isFieldNames, isArgumentNames,
      isInputObjectFields, isInputValues, isTypeCondition, isFragmentSpread,
      isVariableDefinitionTypes, isDirective, orNext_none_left, orNext_none_right, orNext_error, h0, h1, h2, h3, h4, h5, h6, h7, h8, h9, h10, h11, h12, h13, h14, h15]

/-- The dispatcher is its nine rules run in the order of the source. -/
theorem getHintsAtPosition_eq_runRules {T R : Type} [DecidableEq T] (lib : GraphQL T)
    (c : Collaborators T R) (schema : Schema T) (sourceText : String) (cursor : Cursor)
    (token : Token) (state : State) (heff : effectiveState token = some state) :
    getHintsAtPosition lib c schema sourceText cursor token =
      runRules (dispatchRules lib c schema sourceText cursor token state) := by
  simp [getHintsAtPosition, heff, dispatchRules, runRules, orNext_none_right]

/-- C10: on every effective state at most one of the nine dispatch conditions
holds, and the result of the dispatcher does not depend on the order in which
its nine rules are tested. -/
theorem dispatch_conditions_mutually_exclusive {T R : Type} [DecidableEq T] (lib : GraphQL T)
    (c : Collaborators T R) (schema : Schema T) (sourceText : String) (cursor : Cursor)
    (token : Token) (state : State) (heff : effectiveState token = some state) :
    (dispatchConditions state).count (.ok true) ≤ 1 ∧
    ∀ rules, rules.Perm (dispatchRules lib c schema sourceText cursor token state) →
      runRules rules = getHintsAtPosition lib c schema sourceText cursor token := by
  refine ⟨dispatchConditions_count_le_one state, ?_⟩
  intro rules hperm
  rw [getHintsAtPosition_eq_runRules lib c schema sourceText cursor token state heff]
  exact runRules_perm _ _ _
    (dispatchRules_common lib c schema sourceText cursor token state) hperm

/-- A witness of C10: a spread typed inside `fragment PetFields on Pet`. -/
theorem dispatch_conditions_mutually_exclusive_witness :
    (dispatchConditions Fixture.spreadInPetFields).count (.ok true) ≤ 1 ∧
    ∀ rules, rules.Perm (dispatchRules Fixture.lib Fixture.petly Fixture.schema
        "fragment PetFields on Pet \x7b ..." Fixture.cursor
        ⟨"...", 2, 5, Fixture.spreadInPetFields⟩ Fixture.spreadInPetFields) →
      runRules rules = getHintsAtPosition Fixture.lib Fixture.petly Fixture.schema
        "fragment PetFields on Pet \x7b ..." Fixture.cursor
        ⟨"...", 2, 5, Fixture.spreadInPetFields⟩ :=
  dispatch_conditions_mutually_exclusive Fixture.lib Fixture.petly Fixture.schema _
    Fixture.cursor _ Fixture.spreadInPetFields (by decide)

/-! ## Invalid token states -/

theorem effectiveState_of_invalid (token : Token) (h : token.state.kind = "Invalid") :
    effectiveState token = token.state.prevState := by
  simp [effectiveState, h]

theorem effectiveState_of_valid (token : Token) (h : token.state.kind ≠ "Invalid") :
    effectiveState token = some token.state := by
  simp [effectiveState, h]

/-- An `Invalid` state on top of a chain does not change which enclosing
state `getDefinitionState` finds. -/
theorem getDefinitionState_of_invalid (state prev : State) (hk : state.kind = "Invalid")
    (hp : state.prevState = some prev) :
    getDefinitionState state = getDefinitionState prev := by
  cases state with
  | root k s n t => cases hp
  | node k s n t p =>
    simp only [State.prevState, Option.some.injEq] at hp
    simp only [State.kind] at hk
    subst hp hk
    simp [getDefinitionState, forEachState, State.kind]

/-- The counterexample to C6: a token whose state is `Invalid` with a `null`
`prevState` makes the dispatcher throw; under two `Invalid` states on the
document state the last valid ancestor is the document state, yet the
dispatcher works on the inner `Invalid` state and returns `undefined`, where on
the document state it returns the keywords. -/
theorem invalid_chain_counterexample :
    getHintsAtPosition Fixture.lib Fixture.blind Fixture.schema "?" Fixture.cursor
        ⟨"?", 0, 1, .root "Invalid" 0 none none⟩ = .error .typeError ∧
    specLastValidAncestor Fixture.invalidTwice = some Fixture.document ∧
    effectiveState ⟨"?", 1, 2, Fixture.invalidTwice⟩ ≠ some Fixture.document ∧
    getHintsAtPosition Fixture.lib Fixture.blind Fixture.schema "??" Fixture.cursor
        ⟨"?", 1, 2, Fixture.invalidTwice⟩ = .ok none ∧
    getHintsAtPosition Fixture.lib Fixture.blind Fixture.schema "??" Fixture.cursor
        ⟨"?", 1, 2, Fixture.document⟩ = .ok (some keywordHints) := by
  decide

/-- C6, amended: for a token whose state is `Invalid` over a state `prev`, the
dispatcher works on `prev`, one step up the chain: its result is that of its
nine rules on `prev`; `prev` is the last valid ancestor when its kind is not
`Invalid`, and when `prev` is itself `Invalid` the result is `undefined`. -/
theorem invalid_dispatches_on_prevState {T R : Type} [DecidableEq T] (lib : GraphQL T)
    (c : Collaborators T R) (schema : Schema T) (sourceText : String) (cursor : Cursor)
    (token : Token) (prev : State) (hk : token.state.kind = "Invalid")
    (hp : token.state.prevState = some prev) :
    effectiveState token = some prev ∧
    getHintsAtPosition lib c schema sourceText cursor token =
      runRules (dispatchRules lib c schema sourceText cursor token prev) ∧
    (prev.kind ≠ "Invalid" → specLastValidAncestor token.state = some prev) ∧
    (prev.kind = "Invalid" →
      getHintsAtPosition lib c schema sourceText cursor token = .ok none) := by
  have heff : effectiveState token = some prev := by
    rw [effectiveState_of_invalid token hk, hp]
  refine ⟨heff, getHintsAtPosition_eq_runRules lib c schema sourceText cursor token prev heff,
    ?_, ?_⟩
  · intro hne
    cases hst : token.state with
    | root k s n t => rw [hst] at hp; cases hp
    | node k s n t p =>
      rw [hst] at hp hk
      simp only [State.prevState, Option.some.injEq] at hp
      simp only [State.kind] at hk
      subst hp hk
      cases p with
      | root k2 s2 n2 t2 =>
        simp only [State.kind] at hne
        simp [specLastValidAncestor, hne]
      | node k2 s2 n2 t2 p2 =>
        simp only [State.kind] at hne
        simp [specLastValidAncestor, hne]
  · intro hinv
    simp [getHintsAtPosition, heff, orNext, definitionKindsRule, fieldNamesRule,
      argumentNamesRule, inputObjectFieldsRule, inputValuesRule, typeConditionRule,
      fragmentSpreadRule, variableDefinitionTypesRule, directiveRule, isDocument, isFieldNames,
      isArgumentNames, isInputObjectFields, isInputValues, isTypeCondition, isFragmentSpread,
      isVariableDefinitionTypes, isDirective, hinv]

/-- A witness of C6, amended: an `Invalid` state on the state of a spread
inside `fragment PetFields on Pet`. -/
theorem invalid_dispatches_on_prevState_witness :
    effectiveState ⟨"?", 5, 6, .node "Invalid" 0 none none Fixture.spreadInPetFields⟩ =
      some Fixture.spreadInPetFields ∧
    getHintsAtPosition Fixture.lib Fixture.petly Fixture.schema "" Fixture.cursor
        ⟨"?", 5, 6, .node "Invalid" 0 none none Fixture.spreadInPetFields⟩ =
      runRules (dispatchRules Fixture.lib Fixture.petly Fixture.schema "" Fixture.cursor
        ⟨"?", 5, 6, .node "Invalid" 0 none none Fixture.spreadInPetFields⟩
        Fixture.spreadInPetFields) ∧
    (Fixture.spreadInPetFields.kind ≠ "Invalid" →
      specLastValidAncestor
        (Token.state ⟨"?", 5, 6, .node "Invalid" 0 none none Fixture.spreadInPetFields⟩) =
        some Fixture.spreadInPetFields) ∧
    (Fixture.spreadInPetFields.kind = "Invalid" →
      getHintsAtPosition Fixture.lib Fixture.petly Fixture.schema "" Fixture.cursor
        ⟨"?", 5, 6, .node "Invalid" 0 none none Fixture.spreadInPetFields⟩ = .ok none) :=
  invalid_dispatches_on_prevState Fixture.lib Fixture.petly Fixture.schema "" Fixture.cursor
    ⟨"?", 5, 6, .node "Invalid" 0 none none Fixture.spreadInPetFields⟩
    Fixture.spreadInPetFields (by decide) (by decide)

/-- C7: for a state `s` whose kind is not `Invalid`, a token whose state is an
`Invalid` state with `prevState = s` gets the same candidate list (or the same
`undefined`, or the same throw) as a token whose state is `s`, in every rule,
the fragment-spread rule included, whose enclosing-definition lookup starts
from the token's own state. -/
theorem invalid_token_same_candidates {T : Type} [DecidableEq T]
    (lib : GraphQL T) (getTypeInfo : Schema T → State → TypeInfo T)
    (runParser : String → List State) (schema : Schema T) (sourceText : String)
    (cursor : Cursor) (tokenInvalid tokenValid : Token) (s : State)
    (hs : s.kind ≠ "Invalid") (hk : tokenInvalid.state.kind = "Invalid")
    (hp : tokenInvalid.state.prevState = some s) (hv : tokenValid.state = s) :
    candidateList lib getTypeInfo runParser schema sourceText cursor tokenInvalid =
      candidateList lib getTypeInfo runParser schema sourceText cursor tokenValid := by
  have heff1 : effectiveState tokenInvalid = some s := by
    rw [effectiveState_of_invalid tokenInvalid hk, hp]
  have heff2 : effectiveState tokenValid = some s := by
    rw [effectiveState_of_valid tokenValid (by rw [hv]; exact hs), hv]
  have hdef : getDefinitionState tokenInvalid.state = getDefinitionState tokenValid.state := by
    rw [getDefinitionState_of_invalid tokenInvalid.state s hk hp, hv]
  simp only [candidateList, getHintsAtPosition, heff1, heff2, definitionKindsRule,
    fieldNamesRule, argumentNamesRule, inputObjectFieldsRule, inputValuesRule,
    typeConditionRule, fragmentSpreadRule, variableDefinitionTypesRule, directiveRule, hdef]

/-- A witness of C7: an `Invalid` state on the state of a spread inside
`fragment PetFields on Pet`. -/
theorem invalid_token_same_candidates_witness :
    candidateList Fixture.lib Fixture.getTypeInfo Fixture.runParser Fixture.schema
        "fragment PetFields on Pet \x7b ...?" Fixture.cursor
        ⟨"?", 5, 6, .node "Invalid" 0 none none Fixture.spreadInPetFields⟩ =
      candidateList Fixture.lib Fixture.getTypeInfo Fixture.runParser Fixture.schema
        "fragment PetFields on Pet \x7b ...?" Fixture.cursor
        ⟨"...", 2, 5, Fixture.spreadInPetFields⟩ :=
  invalid_token_same_candidates Fixture.lib Fixture.getTypeInfo Fixture.runParser
    Fixture.schema _ Fixture.cursor _ _ Fixture.spreadInPetFields
    (by decide) (by decide) (by decide) (by decide)

/-! ## The interface map of a type condition -/

section IfaceMap

variable {α : Type}

theorem keys_set (m : ObjMap α) (k : String) (v : α) :
    (m.set k v).map Prod.fst = specInsertIfAbsent id (m.map Prod.fst) k := by
  induction m with
  | nil => simp [ObjMap.set, specInsertIfAbsent]
  | cons e rest ih =>
    obtain ⟨a, b⟩ := e
    by_cases h : a = k
    · simp [ObjMap.set, specInsertIfAbsent, h]
    · simp only [ObjMap.set, h, if_false, List.map_cons, ih]
      simp only [specInsertIfAbsent, List.any_cons, id, decide_eq_false h, Bool.false_or]
      split <;> simp

theorem keys_foldl_set (name : α → String) (l : List α) (m : ObjMap α) :
    (l.foldl (fun map x => ObjMap.set map (name x) x) m).map Prod.fst =
      (l.map name).foldl (specInsertIfAbsent id) (m.map Prod.fst) := by
  induction l generalizing m with
  | nil => rfl
  | cons x xs ih => simp only [List.foldl_cons, List.map_cons, ih, keys_set]

theorem nodup_specInsertIfAbsent (acc : List String) (k : String) (h : acc.Nodup) :
    (specInsertIfAbsent id acc k).Nodup := by
  unfold specInsertIfAbsent
  split
  · exact h
  · rename_i hany
    simp only [List.any_eq_true, id, decide_eq_true_eq, not_exists, not_and] at hany
    rw [List.nodup_append]
    refine ⟨h, List.nodup_singleton k, ?_⟩
    intro a ha hb
    simp only [List.mem_singleton] at hb
    exact hany a ha hb

theorem nodup_foldl_specInsertIfAbsent (ks acc : List String) (h : acc.Nodup) :
    (ks.foldl (specInsertIfAbsent id) acc).Nodup := by
  induction ks generalizing acc with
  | nil => exact h
  | cons k ks ih => exact ih _ (nodup_specInsertIfAbsent acc k h)

theorem mem_specInsertIfAbsent (acc : List String) (k x : String) :
    x ∈ specInsertIfAbsent id acc k ↔ x ∈ acc ∨ x = k := by
  unfold specInsertIfAbsent
  split
  · rename_i hany
    simp only [List.any_eq_true, id, decide_eq_true_eq] at hany
    obtain ⟨y, hy, rfl⟩ := hany
    constructor
    · exact Or.inl
    · rintro (h | rfl)
      · exact h
      · exact hy
  · simp

theorem mem_foldl_specInsertIfAbsent (ks acc : List String) (x : String) :
    x ∈ ks.foldl (specInsertIfAbsent id) acc ↔ x ∈ acc ∨ x ∈ ks := by
  induction ks generalizing acc with
  | nil => simp
  | cons k ks ih =>
    simp only [List.foldl_cons, ih, mem_specInsertIfAbsent, List.mem_cons]
    tauto


theorem mem_set_of_nodup (m : ObjMap α) (k : String) (v : α)
    (hnd : (m.map Prod.fst).Nodup) (e : String × α) (he : e ∈ m.set k v) :
    (e.1 = k ∧ e.2 = v) ∨ (e ∈ m ∧ e.1 ≠ k) := by
  induction m with
  | nil =>
    simp only [ObjMap.set, List.mem_singleton] at he
    subst he
    exact Or.inl ⟨rfl, rfl⟩
  | cons e0 rest ih =>
    obtain ⟨a, b⟩ := e0
    simp only [List.map_cons, List.nodup_cons, List.mem_map, not_exists, not_and] at hnd
    by_cases h : a = k
    · simp only [ObjMap.set, h, if_true, List.mem_cons] at he
      rcases he with rfl | he
      · exact Or.inl ⟨rfl, rfl⟩
      · refine Or.inr ⟨List.mem_cons_of_mem _ he, ?_⟩
        intro hek
        exact hnd.1 e he (hek.trans h.symm)
    · simp only [ObjMap.set, h, if_false, List.mem_cons] at he
      rcases he with rfl | he
      · exact Or.inr ⟨List.mem_cons_self _ _, h⟩
      · rcases ih hnd.2 he with hl | ⟨hm, hne⟩
        · exact Or.inl hl
        · exact Or.inr ⟨List.mem_cons_of_mem _ hm, hne⟩

/-- The map filled from a list of named things, as lines 161-166 fill it. -/
theorem keys_filled (name : α → String) (l : List α) :
    (l.foldl (fun map x => ObjMap.set map (name x) x) []).map Prod.fst =
      specDedupByName id (l.map name) := by
  rw [keys_foldl_set]
  rfl

theorem nodup_specDedupByName_id (ks : List String) : (specDedupByName id ks).Nodup :=
  nodup_foldl_specInsertIfAbsent ks [] List.nodup_nil

theorem lastWithName_append_singleton (name : α → String) (l : List α) (x : α) (n : String) :
    lastWithName name (l ++ [x]) n = if name x = n then some x else lastWithName name l n := by
  simp only [lastWithName, List.reverse_append, List.reverse_cons, List.reverse_nil,
    List.nil_append, List.singleton_append, List.find?_cons]
  by_cases h : name x = n <;> simp [h]

/-- Every entry of the filled map holds, under its key, the last element of the
list that has the key for name. -/
theorem values_filled (name : α → String) (l : List α) :
    ∀ e ∈ l.foldl (fun map x => ObjMap.set map (name x) x) [],
      lastWithName name l e.1 = some e.2 := by
  induction l using List.reverseRecOn with
  | nil => intro e he; cases he
  | append_singleton l x ih =>
    intro e he
    rw [List.foldl_append] at he
    simp only [List.foldl_cons, List.foldl_nil] at he
    have hnd : ((l.foldl (fun map x => ObjMap.set map (name x) x) []).map Prod.fst).Nodup := by
      rw [keys_filled]; exact nodup_specDedupByName_id _
    rw [lastWithName_append_singleton]
    rcases mem_set_of_nodup _ _ _ hnd e he with ⟨hk, hv⟩ | ⟨hm, hne⟩
    · rw [if_pos hk.symm, hv]
    · rw [if_neg (fun h => hne h.symm)]
      exact ih e hm

theorem filterMap_keys_eq_values {β : Type} (f : String → Option β) (m : List (String × β))
    (h : ∀ e ∈ m, f e.1 = some e.2) :
    (m.map Prod.fst).filterMap f = m.map Prod.snd := by
  induction m with
  | nil => rfl
  | cons e rest ih =>
    simp only [List.map_cons, List.filterMap_cons, h e (List.mem_cons_self _ _)]
    rw [ih (fun e he => h e (List.mem_cons_of_mem _ he))]

/-- The values of the filled map: one per name in the order of first appearance
of the names, each the last element of that name. -/
theorem objectValues_filled (name : α → String) (l : List α) :
    objectValues (l.foldl (fun map x => ObjMap.set map (name x) x) []) =
      dedupByNameLastKept name l := by
  unfold objectValues dedupByNameLastKept
  rw [← keys_filled]
  exact (filterMap_keys_eq_values _ _ (values_filled name l)).symm

end IfaceMap

/-- The interface map of lines 161-166 is the map filled from the interfaces of
the possible object types in visiting order. -/
theorem possibleIfaceMap_eq {T : Type} (lib : GraphQL T) (possibleObjTypes : List T) :
    possibleIfaceMap lib possibleObjTypes =
      (implementedInterfaces lib possibleObjTypes).foldl
        (fun map iface => ObjMap.set map (lib.name iface) iface) [] := by
  unfold possibleIfaceMap implementedInterfaces
  rw [List.foldl_flatten, List.foldl_map]

section DedupFirst

variable {α : Type}

theorem map_specInsertIfAbsent (name : α → String) (acc : List α) (x : α) :
    (specInsertIfAbsent name acc x).map name =
      specInsertIfAbsent id (acc.map name) (name x) := by
  have hany : (acc.map name).any (fun y => decide (id y = id (name x))) =
      acc.any (fun y => decide (name y = name x)) := by
    induction acc with
    | nil => rfl
    | cons a as ih =>
      simp only [id] at ih
      simp only [List.map_cons, List.any_cons, ih, id]
  unfold specInsertIfAbsent
  rw [hany]
  split <;> simp

theorem map_foldl_specInsertIfAbsent (name : α → String) (l acc : List α) :
    (l.foldl (specInsertIfAbsent name) acc).map name =
      (l.map name).foldl (specInsertIfAbsent id) (acc.map name) := by
  induction l generalizing acc with
  | nil => rfl
  | cons x xs ih => simp only [List.foldl_cons, List.map_cons, ih, map_specInsertIfAbsent]

theorem mem_of_mem_foldl_specInsertIfAbsent (name : α → String) (l acc : List α) (x : α)
    (h : x ∈ l.foldl (specInsertIfAbsent name) acc) : x ∈ acc ∨ x ∈ l := by
  induction l generalizing acc with
  | nil => exact Or.inl h
  | cons y ys ih =>
    rcases ih _ h with h1 | h1
    · unfold specInsertIfAbsent at h1
      split at h1
      · exact Or.inl h1
      · rcases List.mem_append.mp h1 with h2 | h2
        · exact Or.inl h2
        · rw [List.mem_singleton] at h2
          exact Or.inr (h2 ▸ List.mem_cons_self _ _)
    · exact Or.inr (List.mem_cons_of_mem _ h1)

theorem lastWithName_of_mem (name : α → String) (l : List α) (x : α) (hx : x ∈ l) :
    ∃ y, lastWithName name l (name x) = some y ∧ y ∈ l ∧ name y = name x := by
  unfold lastWithName
  cases hfind : l.reverse.find? (fun y => decide (name y = name x)) with
  | none =>
    rw [List.find?_eq_none] at hfind
    have := hfind x (List.mem_reverse.mpr hx)
    simp at this
  | some y =>
    refine ⟨y, rfl, List.mem_reverse.mp (List.mem_of_find?_eq_some hfind), ?_⟩
    have := List.find?_some hfind
    simpa using this

theorem filterMap_map_eq_self {β : Type} (g : α → β) (f : β → Option α) (D : List α)
    (h : ∀ x ∈ D, f (g x) = some x) : (D.map g).filterMap f = D := by
  induction D with
  | nil => rfl
  | cons x xs ih =>
    simp only [List.map_cons, List.filterMap_cons, h x (List.mem_cons_self _ _)]
    rw [ih (fun y hy => h y (List.mem_cons_of_mem _ hy))]

/-- Where equal names mean equal elements, keeping the last occurrence of a name
is keeping the first. -/
theorem dedupByNameLastKept_eq_spec (name : α → String) (l : List α)
    (huniq : ∀ a ∈ l, ∀ b ∈ l, name a = name b → a = b) :
    dedupByNameLastKept name l = specDedupByName name l := by
  unfold dedupByNameLastKept
  have hmap : specDedupByName id (l.map name) = (specDedupByName name l).map name := by
    unfold specDedupByName
    rw [map_foldl_specInsertIfAbsent]
    rfl
  rw [hmap]
  apply filterMap_map_eq_self
  intro x hx
  have hxl : x ∈ l := by
    rcases mem_of_mem_foldl_specInsertIfAbsent name l [] x hx with h | h
    · cases h
    · exact h
  obtain ⟨y, hy, hyl, hname⟩ := lastWithName_of_mem name l x hxl
  rw [hy, huniq y hyl x hxl hname]

end DedupFirst

section IfaceEntries

variable {α : Type}

theorem mem_of_lastWithName (name : α → String) (l : List α) (n : String) (y : α)
    (h : lastWithName name l n = some y) : y ∈ l ∧ name y = n := by
  unfold lastWithName at h
  refine ⟨List.mem_reverse.mp (List.mem_of_find?_eq_some h), ?_⟩
  have := List.find?_some h
  simpa using this

/-- The names of the values of the filled map are the names of the list in
order of first appearance. -/
theorem names_dedupByNameLastKept (name : α → String) (l : List α) :
    (dedupByNameLastKept name l).map name = specDedupByName id (l.map name) := by
  rw [← objectValues_filled, ← keys_filled]
  unfold objectValues
  rw [List.map_map]
  apply List.map_congr_left
  intro e he
  exact (mem_of_lastWithName name l e.1 e.2 (values_filled name l e he)).2

theorem mem_dedupByNameLastKept (name : α → String) (l : List α) (y : α)
    (h : y ∈ dedupByNameLastKept name l) : y ∈ l := by
  unfold dedupByNameLastKept at h
  rw [List.mem_filterMap] at h
  obtain ⟨n, _, hn⟩ := h
  exact (mem_of_lastWithName name l n y hn).1

theorem name_mem_dedupByNameLastKept (name : α → String) (l : List α) (x : α) (hx : x ∈ l) :
    ∃ e ∈ dedupByNameLastKept name l, name e = name x := by
  have hmem : name x ∈ (dedupByNameLastKept name l).map name := by
    rw [names_dedupByNameLastKept]
    unfold specDedupByName
    rw [mem_foldl_specInsertIfAbsent]
    exact Or.inr (List.mem_map_of_mem name hx)
  rw [List.mem_map] at hmem
  exact hmem

end IfaceEntries

section TypeConditions

variable {T R : Type}

/-- At a type-condition position the dispatcher returns what the type-condition
rule builds. -/
theorem getHintsAtPosition_typeCondition [DecidableEq T] (lib : GraphQL T)
    (c : Collaborators T R) (schema : Schema T) (sourceText : String) (cursor : Cursor)
    (token : Token) (state : State) (heff : effectiveState token = some state)
    (hpos : (state.kind = "TypeCondition" ∧ state.step = 1) ∨
      (state.kind = "NamedType" ∧ ∃ prev, state.prevState = some prev ∧
        prev.kind = "TypeCondition")) :
    getHintsAtPosition lib c schema sourceText cursor token =
      .ok (some (c.hintList cursor token
        ((possibleTypes lib schema (c.getTypeInfo schema state)).map (typeHint lib)))) := by
  rcases hpos with ⟨hk, hs⟩ | ⟨hk, prev, hp, hpk⟩
  · simp [getHintsAtPosition, heff, orNext, definitionKindsRule, fieldNamesRule,
      argumentNamesRule, inputObjectFieldsRule, inputValuesRule, typeConditionRule,
      isDocument, isFieldNames, isArgumentNames, isInputObjectFields, isInputValues,
      isTypeCondition, hk, hs]
  · simp [getHintsAtPosition, heff, orNext, definitionKindsRule, fieldNamesRule,
      argumentNamesRule, inputObjectFieldsRule, inputValuesRule, typeConditionRule,
      isDocument, isFieldNames, isArgumentNames, isInputObjectFields, isInputValues,
      isTypeCondition, hk, hp, hpk]

/-- Under an abstract parent type the possible types are the possible object
types followed by one interface per name, the last of that name. -/
theorem possibleTypes_of_abstract (lib : GraphQL T) (schema : Schema T)
    (typeInfo : TypeInfo T) (parentType : T) (hparent : typeInfo.parentType = some parentType)
    (habs : lib.isAbstractType parentType = true) :
    possibleTypes lib schema typeInfo =
      schema.getPossibleTypes parentType ++
        dedupByNameLastKept lib.name
          (implementedInterfaces lib (schema.getPossibleTypes parentType)) := by
  simp only [possibleTypes, hparent, habs, if_true, possibleIfaceMap_eq, objectValues_filled]

end TypeConditions

/-! ## Type conditions under an abstract parent type -/

/-- At a type-condition position whose parent type is abstract the candidate
list is made of the possible object types followed by one interface per name,
in the order of first appearance of the names, each the last interface assigned
under that name by line 164. -/
theorem candidateList_typeCondition_of_abstract {T : Type} [DecidableEq T]
    (lib : GraphQL T) (getTypeInfo : Schema T → State → TypeInfo T)
    (runParser : String → List State) (schema : Schema T) (sourceText : String)
    (cursor : Cursor) (token : Token) (state : State) (parentType : T)
    (heff : effectiveState token = some state)
    (hpos : (state.kind = "TypeCondition" ∧ state.step = 1) ∨
      (state.kind = "NamedType" ∧ ∃ prev, state.prevState = some prev ∧
        prev.kind = "TypeCondition"))
    (hparent : (getTypeInfo schema state).parentType = some parentType)
    (habs : lib.isAbstractType parentType = true) :
    candidateList lib getTypeInfo runParser schema sourceText cursor token =
      .ok (some ((schema.getPossibleTypes parentType ++
        dedupByNameLastKept lib.name
          (implementedInterfaces lib (schema.getPossibleTypes parentType))).map
        (typeHint lib))) := by
  unfold candidateList
  rw [getHintsAtPosition_typeCondition lib _ schema sourceText cursor token state heff hpos]
  simp only [possibleTypes_of_abstract lib schema _ parentType hparent habs]

/-- C2: at a type-condition position (kind `TypeCondition` at step 1, or kind
`NamedType` whose `prevState` has kind `TypeCondition`) whose resolved parent
type is abstract, the candidate list is the concatenation of the schema's
possible object types for the parent type, in the order the schema returns them,
and the interfaces those object types implement, de-duplicated by name in order
of first appearance, the first occurrence of a name being the interface kept.
The schema is one in which interfaces of the same name are the same type
object, as graphql requires of every schema it builds. -/
theorem typeCondition_candidates_of_abstract {T : Type} [DecidableEq T]
    (lib : GraphQL T) (getTypeInfo : Schema T → State → TypeInfo T)
    (runParser : String → List State) (schema : Schema T) (sourceText : String)
    (cursor : Cursor) (token : Token) (state : State) (parentType : T)
    (heff : effectiveState token = some state)
    (hpos : (state.kind = "TypeCondition" ∧ state.step = 1) ∨
      (state.kind = "NamedType" ∧ ∃ prev, state.prevState = some prev ∧
        prev.kind = "TypeCondition"))
    (hparent : (getTypeInfo schema state).parentType = some parentType)
    (habs : lib.isAbstractType parentType = true)
    (huniq : ∀ a ∈ implementedInterfaces lib (schema.getPossibleTypes parentType),
      ∀ b ∈ implementedInterfaces lib (schema.getPossibleTypes parentType),
      lib.name a = lib.name b → a = b) :
    candidateList lib getTypeInfo runParser schema sourceText cursor token =
      .ok (some ((schema.getPossibleTypes parentType ++
        specDedupByName lib.name
          (implementedInterfaces lib (schema.getPossibleTypes parentType))).map
        (fun type : T =>
          ({ text := lib.name type, description := lib.description type } : Hint T)))) := by
  rw [candidateList_typeCondition_of_abstract lib getTypeInfo runParser schema sourceText
    cursor token state parentType heff hpos hparent habs,
    dedupByNameLastKept_eq_spec lib.name _ huniq]
  rfl

/-- A witness of C2: a type condition inside a selection set on `Pet`, whose
object types `Dog` and `Cat` both implement `Pet` and `Named`, in different
orders. -/
theorem typeCondition_candidates_of_abstract_witness :
    candidateList Fixture.lib Fixture.getTypeInfo Fixture.runParser Fixture.schema
        "\x7b pet \x7b ... on " Fixture.cursor ⟨"on", 12, 14, Fixture.typeConditionInPet⟩ =
      .ok (some ((Fixture.schema.getPossibleTypes Fixture.petT ++
        specDedupByName Fixture.lib.name
          (implementedInterfaces Fixture.lib
            (Fixture.schema.getPossibleTypes Fixture.petT))).map
        (fun type : Fixture.TypeObj =>
          ({ text := Fixture.lib.name type, description := Fixture.lib.description type } :
            Hint Fixture.TypeObj)))) :=
  typeCondition_candidates_of_abstract Fixture.lib Fixture.getTypeInfo Fixture.runParser
    Fixture.schema _ Fixture.cursor _ Fixture.typeConditionInPet Fixture.petT
    (by decide) (Or.inl (by decide)) (by decide) (by decide) (by decide)

/-- The type-condition candidates of the fixture under `Pet`: the object types
`Dog` and `Cat`, then the interfaces `Pet` and `Named`, once each. -/
theorem fixture_typeCondition_candidates :
    candidateList Fixture.lib Fixture.getTypeInfo Fixture.runParser Fixture.schema
        "\x7b pet \x7b ... on " Fixture.cursor ⟨"on", 12, 14, Fixture.typeConditionInPet⟩ =
      .ok (some [{ text := "Dog" }, { text := "Cat" },
        { text := "Pet", description := some "An animal." }, { text := "Named" }]) := by
  decide

/-- The counterexample to C3: where the schema's possible types of `Pet` list
`Dog` twice, two entries of the possible-type list have the name `Dog`. -/
theorem possibleTypes_duplicate_name_counterexample :
    (possibleTypes Fixture.lib Fixture.doubledSchema
        (Fixture.getTypeInfo Fixture.doubledSchema Fixture.typeConditionInPet)).map
      Fixture.lib.name = ["Dog", "Dog", "Pet", "Named"] ∧
    ¬ ((possibleTypes Fixture.lib Fixture.doubledSchema
        (Fixture.getTypeInfo Fixture.doubledSchema Fixture.typeConditionInPet)).map
      Fixture.lib.name).Nodup := by
  decide

/-- C3, amended: under an abstract parent type the possible-type list contains
every object type returned by `schema.getPossibleTypes(parentType)` and every
interface returned by `getInterfaces()` of any of them, and no two entries of
the list have the same type name exactly when `getPossibleTypes` returns no
object type more than once: the interfaces are de-duplicated, the object types
are concatenated as returned. The schema is one in which types of the same name
are the same type object and an object type is no interface, as graphql requires
of every schema it builds. -/
theorem possibleTypes_of_abstract_contents {T : Type}
    (lib : GraphQL T) (schema : Schema T) (typeInfo : TypeInfo T) (parentType : T)
    (hparent : typeInfo.parentType = some parentType)
    (habs : lib.isAbstractType parentType = true)
    (huniq : ∀ a ∈ schema.getPossibleTypes parentType ++
          implementedInterfaces lib (schema.getPossibleTypes parentType),
      ∀ b ∈ schema.getPossibleTypes parentType ++
          implementedInterfaces lib (schema.getPossibleTypes parentType),
      lib.name a = lib.name b → a = b)
    (hobj : ∀ t ∈ schema.getPossibleTypes parentType,
      t ∉ implementedInterfaces lib (schema.getPossibleTypes parentType)) :
    (∀ t ∈ schema.getPossibleTypes parentType, t ∈ possibleTypes lib schema typeInfo) ∧
    (∀ t ∈ schema.getPossibleTypes parentType, ∀ iface ∈ lib.getInterfaces t,
      iface ∈ possibleTypes lib schema typeInfo) ∧
    (((possibleTypes lib schema typeInfo).map lib.name).Nodup ↔
      (schema.getPossibleTypes parentType).Nodup) := by
  have hmemI : ∀ t ∈ schema.getPossibleTypes parentType, ∀ iface ∈ lib.getInterfaces t,
      iface ∈ implementedInterfaces lib (schema.getPossibleTypes parentType) := by
    intro t ht iface hi
    unfold implementedInterfaces
    rw [List.mem_flatten]
    exact ⟨lib.getInterfaces t, List.mem_map_of_mem _ ht, hi⟩
  have hnd : ((dedupByNameLastKept lib.name
      (implementedInterfaces lib (schema.getPossibleTypes parentType))).map lib.name).Nodup := by
    rw [names_dedupByNameLastKept]
    exact nodup_specDedupByName_id _
  rw [possibleTypes_of_abstract lib schema typeInfo parentType hparent habs]
  refine ⟨?_, ?_, ?_, ?_⟩
  · intro t ht
    exact List.mem_append_left _ ht
  · intro t ht iface hi
    have hI := hmemI t ht iface hi
    obtain ⟨e, he, hname⟩ := name_mem_dedupByNameLastKept lib.name _ iface hI
    have heq : e = iface :=
      huniq e (List.mem_append_right _ (mem_dedupByNameLastKept lib.name _ e he))
        iface (List.mem_append_right _ hI) hname
    exact List.mem_append_right _ (heq ▸ he)
  · intro hnames
    rw [List.map_append, List.nodup_append] at hnames
    exact List.Nodup.of_map _ hnames.1
  · intro hobjs
    rw [List.map_append, List.nodup_append]
    refine ⟨?_, hnd, ?_⟩
    · apply List.Nodup.map_on _ hobjs
      intro a ha b hb hab
      exact huniq a (List.mem_append_left _ ha) b (List.mem_append_left _ hb) hab
    · intro n hn1 hn2
      rw [List.mem_map] at hn1 hn2
      obtain ⟨t, ht, rfl⟩ := hn1
      obtain ⟨e, he, hname⟩ := hn2
      have heI := mem_dedupByNameLastKept lib.name _ e he
      have heq : e = t :=
        huniq e (List.mem_append_right _ heI) t (List.mem_append_left _ ht) hname
      exact hobj t ht (heq ▸ heI)

/-- A witness of C3, amended: the possible types of the interface `Pet`, whose
object types `Dog` and `Cat` both implement `Pet` and `Named`. -/
theorem possibleTypes_of_abstract_contents_witness :
    (∀ t ∈ Fixture.schema.getPossibleTypes Fixture.petT,
      t ∈ possibleTypes Fixture.lib Fixture.schema
        (Fixture.getTypeInfo Fixture.schema Fixture.typeConditionInPet)) ∧
    (∀ t ∈ Fixture.schema.getPossibleTypes Fixture.petT,
      ∀ iface ∈ Fixture.lib.getInterfaces t,
        iface ∈ possibleTypes Fixture.lib Fixture.schema
          (Fixture.getTypeInfo Fixture.schema Fixture.typeConditionInPet)) ∧
    (((possibleTypes Fixture.lib Fixture.schema
          (Fixture.getTypeInfo Fixture.schema Fixture.typeConditionInPet)).map
        Fixture.lib.name).Nodup ↔
      (Fixture.schema.getPossibleTypes Fixture.petT).Nodup) :=
  possibleTypes_of_abstract_contents Fixture.lib Fixture.schema
    (Fixture.getTypeInfo Fixture.schema Fixture.typeConditionInPet) Fixture.petT
    (by decide) (by decide) (by decide) (by decide)

/-- The possible types of `Pet` in the fixture. -/
theorem fixture_possibleTypes :
    possibleTypes Fixture.lib Fixture.schema
        (Fixture.getTypeInfo Fixture.schema Fixture.typeConditionInPet) =
      [Fixture.dogT, Fixture.catT, Fixture.petT, Fixture.namedT] := by
  decide

/-! ## Keywords, field names and input values -/

/-- C14: when the effective state has kind `Document` the candidate list is
exactly the five keyword literals `query`, `mutation`, `subscription`,
`fragment` and the opening brace, in that order, each carrying its text and no
other field, whatever the schema, the source text and the cursor. -/
theorem document_candidates_are_keywords {T : Type} [DecidableEq T]
    (lib : GraphQL T) (getTypeInfo : Schema T → State → TypeInfo T)
    (runParser : String → List State) (schema : Schema T) (sourceText : String)
    (cursor : Cursor) (token : Token) (state : State)
    (heff : effectiveState token = some state) (hk : state.kind = "Document") :
    candidateList lib getTypeInfo runParser schema sourceText cursor token =
      .ok (some
        [{ text := "query", type := none, description := none, isDeprecated := none,
           deprecationReason := none },
         { text := "mutation", type := none, description := none, isDeprecated := none,
           deprecationReason := none },
         { text := "subscription", type := none, description := none, isDeprecated := none,
           deprecationReason := none },
         { text := "fragment", type := none, description := none, isDeprecated := none,
           deprecationReason := none },
         { text := "\x7b", type := none, description := none, isDeprecated := none,
           deprecationReason := none }]) := by
  simp [candidateList, getHintsAtPosition, heff, orNext, definitionKindsRule, isDocument, hk,
    keywordHints]

/-- A witness of C14: the state of an empty document. -/
theorem document_candidates_are_keywords_witness :
    candidateList Fixture.lib Fixture.getTypeInfo Fixture.runParser Fixture.schema ""
        Fixture.cursor ⟨"", 0, 0, Fixture.document⟩ =
      .ok (some
        [{ text := "query", type := none, description := none, isDeprecated := none,
           deprecationReason := none },
         { text := "mutation", type := none, description := none, isDeprecated := none,
           deprecationReason := none },
         { text := "subscription", type := none, description := none, isDeprecated := none,
           deprecationReason := none },
         { text := "fragment", type := none, description := none, isDeprecated := none,
           deprecationReason := none },
         { text := "\x7b", type := none, description := none, isDeprecated := none,
           deprecationReason := none }]) :=
  document_candidates_are_keywords Fixture.lib Fixture.getTypeInfo Fixture.runParser
    Fixture.schema "" Fixture.cursor ⟨"", 0, 0, Fixture.document⟩ Fixture.document
    (by decide) (by decide)

/-- At a field-name position with a parent type the dispatcher returns what the
field-name rule builds. -/
theorem getHintsAtPosition_fieldNames {T R : Type} [DecidableEq T] (lib : GraphQL T)
    (c : Collaborators T R) (schema : Schema T) (sourceText : String) (cursor : Cursor)
    (token : Token) (state : State) (parentType : T)
    (heff : effectiveState token = some state)
    (hk : state.kind = "SelectionSet" ∨ state.kind = "Field" ∨ state.kind = "AliasedField")
    (hparent : (c.getTypeInfo schema state).parentType = some parentType) :
    getHintsAtPosition lib c schema sourceText cursor token =
      .ok (some (c.hintList cursor token
        ((((lib.getFields parentType).map objectValues).getD [] ++
          (if lib.isAbstractType parentType then [lib.TypeNameMetaFieldDef] else []) ++
          (if some parentType = schema.getQueryType then
            [lib.SchemaMetaFieldDef, lib.TypeMetaFieldDef] else [])).map fieldHint))) := by
  rcases hk with hk | hk | hk <;>
  · simp only [getHintsAtPosition, heff, orNext, definitionKindsRule, fieldNamesRule,
      argumentNamesRule, inputObjectFieldsRule, inputValuesRule, typeConditionRule,
      fragmentSpreadRule, variableDefinitionTypesRule, directiveRule, isDocument, isFieldNames,
      isArgumentNames, isInputObjectFields, isInputValues, isTypeCondition, isFragmentSpread,
      isVariableDefinitionTypes, isDirective, hk, hparent]
    cases hf : lib.getFields parentType <;>
    by_cases ha : lib.isAbstractType parentType = true <;>
    by_cases hq : some parentType = schema.getQueryType <;>
    simp [ha, hq]

/-- C11: at a field-name position (kind `SelectionSet`, `Field` or
`AliasedField`) with a resolved parent type the candidate list has one candidate
per field of the parent type in the order of `getFields()` (none when the type
has no `getFields`), then the `__typename` meta field if and only if the parent
type is abstract, then the `__schema` and `__type` meta fields, in that order,
if and only if the parent type is the schema's query type; each candidate has
the field's name as text and its type, description, `isDeprecated` and
`deprecationReason` unchanged. -/
theorem fieldNames_candidates {T : Type} [DecidableEq T]
    (lib : GraphQL T) (getTypeInfo : Schema T → State → TypeInfo T)
    (runParser : String → List State) (schema : Schema T) (sourceText : String)
    (cursor : Cursor) (token : Token) (state : State) (parentType : T)
    (heff : effectiveState token = some state)
    (hk : state.kind = "SelectionSet" ∨ state.kind = "Field" ∨ state.kind = "AliasedField")
    (hparent : (getTypeInfo schema state).parentType = some parentType) :
    candidateList lib getTypeInfo runParser schema sourceText cursor token =
      .ok (some
        ((((lib.getFields parentType).map objectValues).getD [] ++
          (if lib.isAbstractType parentType then [lib.TypeNameMetaFieldDef] else []) ++
          (if some parentType = schema.getQueryType then
            [lib.SchemaMetaFieldDef, lib.TypeMetaFieldDef] else [])).map
          (fun field : FieldDef T =>
            ({ text := field.name
               type := some field.type
               description := field.description
               isDeprecated := field.isDeprecated
               deprecationReason := field.deprecationReason } : Hint T)))) :=
  getHintsAtPosition_fieldNames lib _ schema sourceText cursor token state parentType
    heff hk hparent

/-- A witness of C11: the selection set of a query, whose parent type `Query` is
the schema's query type. -/
theorem fieldNames_candidates_witness :
    candidateList Fixture.lib Fixture.getQueryInfo Fixture.runParser Fixture.schema
        "\x7b " Fixture.cursor ⟨"\x7b", 0, 1, Fixture.selectionSetInQuery⟩ =
      .ok (some
        ((((Fixture.lib.getFields Fixture.queryT).map objectValues).getD [] ++
          (if Fixture.lib.isAbstractType Fixture.queryT then
            [Fixture.lib.TypeNameMetaFieldDef] else []) ++
          (if some Fixture.queryT = Fixture.schema.getQueryType then
            [Fixture.lib.SchemaMetaFieldDef, Fixture.lib.TypeMetaFieldDef] else [])).map
          (fun field : FieldDef Fixture.TypeObj =>
            ({ text := field.name
               type := some field.type
               description := field.description
               isDeprecated := field.isDeprecated
               deprecationReason := field.deprecationReason } : Hint Fixture.TypeObj)))) :=
  fieldNames_candidates Fixture.lib Fixture.getQueryInfo Fixture.runParser Fixture.schema
    "\x7b " Fixture.cursor ⟨"\x7b", 0, 1, Fixture.selectionSetInQuery⟩
    Fixture.selectionSetInQuery Fixture.queryT (by decide) (Or.inl (by decide)) (by decide)

/-- The field candidates of the fixture: in a selection set on the query type
the field `pet` and the two schema meta fields, on the interface `Pet` the field
`name` and `__typename`. -/
theorem fixture_fieldNames_candidates :
    candidateList Fixture.lib Fixture.getQueryInfo Fixture.runParser Fixture.schema
        "\x7b " Fixture.cursor ⟨"\x7b", 0, 1, Fixture.selectionSetInQuery⟩ =
      .ok (some [{ text := "pet", type := some Fixture.petT },
        { text := "__schema", type := some Fixture.stringT },
        { text := "__type", type := some Fixture.stringT }]) ∧
    candidateList Fixture.lib Fixture.getTypeInfo Fixture.runParser Fixture.schema
        "\x7b pet \x7b " Fixture.cursor ⟨"\x7b", 6, 7, Fixture.selectionSetInQuery⟩ =
      .ok (some [{ text := "name", type := some Fixture.stringT },
        { text := "__typename", type := some Fixture.stringT }]) := by
  decide

/-- At an input-value position the dispatcher returns what the input-value rule
gives. -/
theorem getHintsAtPosition_inputValues {T R : Type} [DecidableEq T] (lib : GraphQL T)
    (c : Collaborators T R) (schema : Schema T) (sourceText : String) (cursor : Cursor)
    (token : Token) (state : State) (namedInputType : T)
    (heff : effectiveState token = some state)
    (hpos : state.kind = "EnumValue" ∨ (state.kind = "ListValue" ∧ state.step = 1) ∨
      (state.kind = "ObjectField" ∧ state.step = 2) ∨
      (state.kind = "Argument" ∧ state.step = 2))
    (hnamed : lib.getNamedType (c.getTypeInfo schema state).inputType = some namedInputType)
    (hvalued : lib.isEnumType namedInputType = true ∨ namedInputType = lib.GraphQLBoolean) :
    getHintsAtPosition lib c schema sourceText cursor token =
      .ok (some (c.hintList cursor token
        (if lib.isEnumType namedInputType then
          (objectValues (lib.getValues namedInputType)).map (enumValueHint namedInputType)
        else booleanHints lib))) := by
  by_cases he : lib.isEnumType namedInputType = true
  · rcases hpos with hk | ⟨hk, hs⟩ | ⟨hk, hs⟩ | ⟨hk, hs⟩
    · simp [getHintsAtPosition, heff, orNext, definitionKindsRule, fieldNamesRule,
      argumentNamesRule, inputObjectFieldsRule, inputValuesRule, typeConditionRule,
      fragmentSpreadRule, variableDefinitionTypesRule, directiveRule, isDocument, isFieldNames,
      isArgumentNames, isInputObjectFields, isInputValues, isTypeCondition, isFragmentSpread,
      isVariableDefinitionTypes, isDirective, hk, hnamed, he]
    · simp [getHintsAtPosition, heff, orNext, definitionKindsRule, fieldNamesRule,
      argumentNamesRule, inputObjectFieldsRule, inputValuesRule, typeConditionRule,
      fragmentSpreadRule, variableDefinitionTypesRule, directiveRule, isDocument, isFieldNames,
      isArgumentNames, isInputObjectFields, isInputValues, isTypeCondition, isFragmentSpread,
      isVariableDefinitionTypes, isDirective, hk, hs, hnamed, he]
    · simp [getHintsAtPosition, heff, orNext, definitionKindsRule, fieldNamesRule,
      argumentNamesRule, inputObjectFieldsRule, inputValuesRule, typeConditionRule,
      fragmentSpreadRule, variableDefinitionTypesRule, directiveRule, isDocument, isFieldNames,
      isArgumentNames, isInputObjectFields, isInputValues, isTypeCondition, isFragmentSpread,
      isVariableDefinitionTypes, isDirective, hk, hs, hnamed, he]
    · simp [getHintsAtPosition, heff, orNext, definitionKindsRule, fieldNamesRule,
      argumentNamesRule, inputObjectFieldsRule, inputValuesRule, typeConditionRule,
      fragmentSpreadRule, variableDefinitionTypesRule, directiveRule, isDocument, isFieldNames,
      isArgumentNames, isInputObjectFields, isInputValues, isTypeCondition, isFragmentSpread,
      isVariableDefinitionTypes, isDirective, hk, hs, hnamed, he]
  · have hb : namedInputType = lib.GraphQLBoolean := hvalued.resolve_left he
    subst hb
    rcases hpos with hk | ⟨hk, hs⟩ | ⟨hk, hs⟩ | ⟨hk, hs⟩
    · simp [getHintsAtPosition, heff, orNext, definitionKindsRule, fieldNamesRule,
      argumentNamesRule, inputObjectFieldsRule, inputValuesRule, typeConditionRule,
      fragmentSpreadRule, variableDefinitionTypesRule, directiveRule, isDocument, isFieldNames,
      isArgumentNames, isInputObjectFields, isInputValues, isTypeCondition, isFragmentSpread,
      isVariableDefinitionTypes, isDirective, hk, hnamed, he]
    · simp [getHintsAtPosition, heff, orNext, definitionKindsRule, fieldNamesRule,
      argumentNamesRule, inputObjectFieldsRule, inputValuesRule, typeConditionRule,
      fragmentSpreadRule, variableDefinitionTypesRule, directiveRule, isDocument, isFieldNames,
      isArgumentNames, isInputObjectFields, isInputValues, isTypeCondition, isFragmentSpread,
      isVariableDefinitionTypes, isDirective, hk, hs, hnamed, he]
    · simp [getHintsAtPosition, heff, orNext, definitionKindsRule, fieldNamesRule,
      argumentNamesRule, inputObjectFieldsRule, inputValuesRule, typeConditionRule,
      fragmentSpreadRule, variableDefinitionTypesRule, directiveRule, isDocument, isFieldNames,
      isArgumentNames, isInputObjectFields, isInputValues, isTypeCondition, isFragmentSpread,
      isVariableDefinitionTypes, isDirective, hk, hs, hnamed, he]
    · simp [getHintsAtPosition, heff, orNext, definitionKindsRule, fieldNamesRule,
      argumentNamesRule, inputObjectFieldsRule, inputValuesRule, typeConditionRule,
      fragmentSpreadRule, variableDefinitionTypesRule, directiveRule, isDocument, isFieldNames,
      isArgumentNames, isInputObjectFields, isInputValues, isTypeCondition, isFragmentSpread,
      isVariableDefinitionTypes, isDirective, hk, hs, hnamed, he]

/-- C12: at an input-value position (kind `EnumValue`, `ListValue` at step 1,
`ObjectField` at step 2, `Argument` at step 2) whose named input type is an enum
the candidate list has exactly one candidate per value of the enum, in the
enum's order, so that the candidate texts are exactly the enum's value names;
each candidate has that value's description, `isDeprecated` and
`deprecationReason` unchanged and the enum as its type. -/
theorem enumValues_candidates {T : Type} [DecidableEq T]
    (lib : GraphQL T) (getTypeInfo : Schema T → State → TypeInfo T)
    (runParser : String → List State) (schema : Schema T) (sourceText : String)
    (cursor : Cursor) (token : Token) (state : State) (enumType : T)
    (heff : effectiveState token = some state)
    (hpos : state.kind = "EnumValue" ∨ (state.kind = "ListValue" ∧ state.step = 1) ∨
      (state.kind = "ObjectField" ∧ state.step = 2) ∨
      (state.kind = "Argument" ∧ state.step = 2))
    (hnamed : lib.getNamedType (getTypeInfo schema state).inputType = some enumType)
    (henum : lib.isEnumType enumType = true) :
    ∃ hints, candidateList lib getTypeInfo runParser schema sourceText cursor token =
        .ok (some hints) ∧
      hints = (objectValues (lib.getValues enumType)).map
        (fun value : EnumValueDef =>
          ({ text := value.name
             type := some enumType
             description := value.description
             isDeprecated := value.isDeprecated
             deprecationReason := value.deprecationReason } : Hint T)) ∧
      hints.map (fun hint => hint.text) =
        (objectValues (lib.getValues enumType)).map (fun value => value.name) ∧
      (∀ n, n ∈ hints.map (fun hint => hint.text) ↔
        n ∈ (objectValues (lib.getValues enumType)).map (fun value => value.name)) := by
  have hlist : ((objectValues (lib.getValues enumType)).map (enumValueHint enumType)).map
      (fun hint => hint.text) =
      (objectValues (lib.getValues enumType)).map (fun value => value.name) := by
    rw [List.map_map]
    rfl
  refine ⟨(objectValues (lib.getValues enumType)).map (enumValueHint enumType), ?_, rfl,
    hlist, ?_⟩
  · unfold candidateList
    rw [getHintsAtPosition_inputValues lib _ schema sourceText cursor token state enumType
      heff hpos hnamed (Or.inl henum)]
    simp [henum]
  · intro n
    rw [hlist]

/-- A witness of C12: the value of an argument whose type is the enum `Species`. -/
theorem enumValues_candidates_witness :
    ∃ hints, candidateList Fixture.enumLib Fixture.getSpeciesInput Fixture.runParser
        Fixture.schema "\x7b pet(species: " Fixture.cursor
        ⟨" ", 14, 15, Fixture.argumentValue⟩ = .ok (some hints) ∧
      hints = (objectValues (Fixture.enumLib.getValues Fixture.speciesT)).map
        (fun value : EnumValueDef =>
          ({ text := value.name
             type := some Fixture.speciesT
             description := value.description
             isDeprecated := value.isDeprecated
             deprecationReason := value.deprecationReason } : Hint Fixture.TypeObj)) ∧
      hints.map (fun hint => hint.text) =
        (objectValues (Fixture.enumLib.getValues Fixture.speciesT)).map
          (fun value => value.name) ∧
      (∀ n, n ∈ hints.map (fun hint => hint.text) ↔
        n ∈ (objectValues (Fixture.enumLib.getValues Fixture.speciesT)).map
          (fun value => value.name)) :=
  enumValues_candidates Fixture.enumLib Fixture.getSpeciesInput Fixture.runParser
    Fixture.schema "\x7b pet(species: " Fixture.cursor ⟨" ", 14, 15, Fixture.argumentValue⟩
    Fixture.argumentValue Fixture.speciesT (by decide)
    (Or.inr (Or.inr (Or.inr (by decide)))) (by decide) (by decide)

/-- The enum candidates of the fixture. -/
theorem fixture_enumValues_candidates :
    candidateList Fixture.enumLib Fixture.getSpeciesInput Fixture.runParser
        Fixture.schema "\x7b pet(species: " Fixture.cursor
        ⟨" ", 14, 15, Fixture.argumentValue⟩ =
      .ok (some
        [{ text := "DOG", type := some Fixture.speciesT, description := some "A dog.",
           isDeprecated := some false, deprecationReason := none },
         { text := "CAT", type := some Fixture.speciesT, description := none,
           isDeprecated := some true, deprecationReason := some "No cats." }]) := by
  decide

/-- C13: at an input-value position whose named input type is the Boolean
scalar (which is no enum type) the candidate list is exactly two candidates in
this order: text `true` with description `Not false.` and text `false` with
description `Not true.`, both typed Boolean, whatever else the schema holds. -/
theorem boolean_candidates {T : Type} [DecidableEq T]
    (lib : GraphQL T) (getTypeInfo : Schema T → State → TypeInfo T)
    (runParser : String → List State) (schema : Schema T) (sourceText : String)
    (cursor : Cursor) (token : Token) (state : State)
    (heff : effectiveState token = some state)
    (hpos : state.kind = "EnumValue" ∨ (state.kind = "ListValue" ∧ state.step = 1) ∨
      (state.kind = "ObjectField" ∧ state.step = 2) ∨
      (state.kind = "Argument" ∧ state.step = 2))
    (hnamed : lib.getNamedType (getTypeInfo schema state).inputType = some lib.GraphQLBoolean)
    (hscalar : lib.isEnumType lib.GraphQLBoolean = false) :
    candidateList lib getTypeInfo runParser schema sourceText cursor token =
      .ok (some
        [{ text := "true", type := some lib.GraphQLBoolean, description := some "Not false.",
           isDeprecated := none, deprecationReason := none },
         { text := "false", type := some lib.GraphQLBoolean, description := some "Not true.",
           isDeprecated := none, deprecationReason := none }]) := by
  unfold candidateList
  rw [getHintsAtPosition_inputValues lib _ schema sourceText cursor token state
    lib.GraphQLBoolean heff hpos hnamed (Or.inr rfl)]
  simp [hscalar, booleanHints]

/-- A witness of C13: the value of an argument whose type is `Boolean`. -/
theorem boolean_candidates_witness :
    candidateList Fixture.enumLib Fixture.getBooleanInput Fixture.runParser Fixture.schema
        "\x7b pet(tame: " Fixture.cursor ⟨" ", 11, 12, Fixture.argumentValue⟩ =
      .ok (some
        [{ text := "true", type := some Fixture.enumLib.GraphQLBoolean,
           description := some "Not false.", isDeprecated := none, deprecationReason := none },
         { text := "false", type := some Fixture.enumLib.GraphQLBoolean,
           description := some "Not true.", isDeprecated := none,
           deprecationReason := none }]) :=
  boolean_candidates Fixture.enumLib Fixture.getBooleanInput Fixture.runParser Fixture.schema
    "\x7b pet(tame: " Fixture.cursor ⟨" ", 11, 12, Fixture.argumentValue⟩
    Fixture.argumentValue (by decide) (Or.inr (Or.inr (Or.inr (by decide))))
    (by decide) (by decide)

/-- C15: at a type-condition position (kind `TypeCondition` at step 1, or kind
`NamedType` whose `prevState` has kind `TypeCondition`) whose resolved parent
type is not abstract the possible-type list is exactly the one-element list of
the parent type, and the candidate list is the one hint of that type. -/
theorem typeCondition_candidates_of_concrete {T : Type} [DecidableEq T]
    (lib : GraphQL T) (getTypeInfo : Schema T → State → TypeInfo T)
    (runParser : String → List State) (schema : Schema T) (sourceText : String)
    (cursor : Cursor) (token : Token) (state : State) (parentType : T)
    (heff : effectiveState token = some state)
    (hpos : (state.kind = "TypeCondition" ∧ state.step = 1) ∨
      (state.kind = "NamedType" ∧ ∃ prev, state.prevState = some prev ∧
        prev.kind = "TypeCondition"))
    (hparent : (getTypeInfo schema state).parentType = some parentType)
    (hconcrete : lib.isAbstractType parentType = false) :
    possibleTypes lib schema (getTypeInfo schema state) = [parentType] ∧
    candidateList lib getTypeInfo runParser schema sourceText cursor token =
      .ok (some [{ text := lib.name parentType, description := lib.description parentType }]) := by
  have hposs : possibleTypes lib schema (getTypeInfo schema state) = [parentType] := by
    simp [possibleTypes, hparent, hconcrete]
  refine ⟨hposs, ?_⟩
  unfold candidateList
  rw [getHintsAtPosition_typeCondition lib _ schema sourceText cursor token state heff hpos]
  simp only [hposs, List.map_cons, List.map_nil, typeHint]

/-- A witness of C15: a type condition inside a selection set on the object
type `Dog`. -/
theorem typeCondition_candidates_of_concrete_witness :
    possibleTypes Fixture.lib Fixture.schema
        (Fixture.getDogInfo Fixture.schema Fixture.typeConditionInPet) = [Fixture.dogT] ∧
    candidateList Fixture.lib Fixture.getDogInfo Fixture.runParser Fixture.schema
        "\x7b dog \x7b ... on " Fixture.cursor ⟨"on", 12, 14, Fixture.typeConditionInPet⟩ =
      .ok (some [{ text := Fixture.lib.name Fixture.dogT,
                   description := Fixture.lib.description Fixture.dogT }]) :=
  typeCondition_candidates_of_concrete Fixture.lib Fixture.getDogInfo Fixture.runParser
    Fixture.schema "\x7b dog \x7b ... on " Fixture.cursor
    ⟨"on", 12, 14, Fixture.typeConditionInPet⟩ Fixture.typeConditionInPet Fixture.dogT
    (by decide) (Or.inl (by decide)) (by decide) (by decide)

/-! ## What the dispatcher does with the cursor and the source text -/

section Parametric

variable {T R : Type}

theorem orNext_map {α β : Type} (f : α → β) (a b : Except JsError (Option α)) :
    orNext (Except.map (Option.map f) a) (Except.map (Option.map f) b) =
      Except.map (Option.map f) (orNext a b) := by
  cases a with
  | error e => rfl
  | ok v =>
    cases v with
    | none => rfl
    | some x => rfl

/-- The rule `definitionKindsRule` returns what `hintList` makes of the candidate list
the rule builds. -/
theorem definitionKindsRule_eq_map
    (c : Collaborators T R) (cursor : Cursor) (token : Token) (state : State) :
    definitionKindsRule c cursor token state =
      Except.map (Option.map (c.hintList cursor token))
        (definitionKindsRule 
          { getTypeInfo := c.getTypeInfo, hintList := fun _ _ list => list,
            runParser := c.runParser }
          cursor token state) := by
  unfold definitionKindsRule
  repeat' split
  all_goals rfl

/-- The rule `fieldNamesRule` returns what `hintList` makes of the candidate list
the rule builds. -/
theorem fieldNamesRule_eq_map
    [DecidableEq T] (lib : GraphQL T) (c : Collaborators T R) (schema : Schema T) (cursor :
    Cursor) (token : Token) (state : State) (typeInfo : TypeInfo T) :
    fieldNamesRule lib c schema cursor token state typeInfo =
      Except.map (Option.map (c.hintList cursor token))
        (fieldNamesRule lib 
          { getTypeInfo := c.getTypeInfo, hintList := fun _ _ list => list,
            runParser := c.runParser }
          schema cursor token state typeInfo) := by
  unfold fieldNamesRule
  repeat' split
  all_goals rfl

/-- The rule `argumentNamesRule` returns what `hintList` makes of the candidate list
the rule builds. -/
theorem argumentNamesRule_eq_map
    (c : Collaborators T R) (cursor : Cursor) (token : Token) (state : State) (typeInfo :
    TypeInfo T) :
    argumentNamesRule c cursor token state typeInfo =
      Except.map (Option.map (c.hintList cursor token))
        (argumentNamesRule 
          { getTypeInfo := c.getTypeInfo, hintList := fun _ _ list => list,
            runParser := c.runParser }
          cursor token state typeInfo) := by
  unfold argumentNamesRule
  repeat' split
  all_goals rfl

/-- The rule `inputObjectFieldsRule` returns what `hintList` makes of the candidate list
the rule builds. -/
theorem inputObjectFieldsRule_eq_map
    (c : Collaborators T R) (cursor : Cursor) (token : Token) (state : State) (typeInfo :
    TypeInfo T) :
    inputObjectFieldsRule c cursor token state typeInfo =
      Except.map (Option.map (c.hintList cursor token))
        (inputObjectFieldsRule 
          { getTypeInfo := c.getTypeInfo, hintList := fun _ _ list => list,
            runParser := c.runParser }
          cursor token state typeInfo) := by
  unfold inputObjectFieldsRule
  repeat' split
  all_goals rfl

/-- The rule `inputValuesRule` returns what `hintList` makes of the candidate list
the rule builds. -/
theorem inputValuesRule_eq_map
    [DecidableEq T] (lib : GraphQL T) (c : Collaborators T R) (cursor : Cursor) (token :
    Token) (state : State) (typeInfo : TypeInfo T) :
    inputValuesRule lib c cursor token state typeInfo =
      Except.map (Option.map (c.hintList cursor token))
        (inputValuesRule lib 
          { getTypeInfo := c.getTypeInfo, hintList := fun _ _ list => list,
            runParser := c.runParser }
          cursor token state typeInfo) := by
  unfold inputValuesRule
  repeat' split
  all_goals rfl

/-- The rule `typeConditionRule` returns what `hintList` makes of the candidate list
the rule builds. -/
theorem typeConditionRule_eq_map
    (lib : GraphQL T) (c : Collaborators T R) (schema : Schema T) (cursor : Cursor) (token :
    Token) (state : State) (typeInfo : TypeInfo T) :
    typeConditionRule lib c schema cursor token state typeInfo =
      Except.map (Option.map (c.hintList cursor token))
        (typeConditionRule lib 
          { getTypeInfo := c.getTypeInfo, hintList := fun _ _ list => list,
            runParser := c.runParser }
          schema cursor token state typeInfo) := by
  unfold typeConditionRule
  repeat' split
  all_goals rfl

/-- The rule `fragmentSpreadRule` returns what `hintList` makes of the candidate list
the rule builds. -/
theorem fragmentSpreadRule_eq_map
    (lib : GraphQL T) (c : Collaborators T R) (schema : Schema T) (sourceText : String)
    (cursor : Cursor) (token : Token) (state : State) (typeInfo : TypeInfo T) :
    fragmentSpreadRule lib c schema sourceText cursor token state typeInfo =
      Except.map (Option.map (c.hintList cursor token))
        (fragmentSpreadRule lib 
          { getTypeInfo := c.getTypeInfo, hintList := fun _ _ list => list,
            runParser := c.runParser }
          schema sourceText cursor token state typeInfo) := by
  unfold fragmentSpreadRule
  split
  · dsimp only
    cases filterThrowing
        (isRelevantFrag lib schema typeInfo schema.getTypeMap (getDefinitionState token.state))
        (getFragmentDefinitions c.runParser sourceText) <;> rfl
  · rfl

/-- The rule `variableDefinitionTypesRule` returns what `hintList` makes of the candidate list
the rule builds. -/
theorem variableDefinitionTypesRule_eq_map
    (lib : GraphQL T) (c : Collaborators T R) (schema : Schema T) (cursor : Cursor) (token :
    Token) (state : State) :
    variableDefinitionTypesRule lib c schema cursor token state =
      Except.map (Option.map (c.hintList cursor token))
        (variableDefinitionTypesRule lib 
          { getTypeInfo := c.getTypeInfo, hintList := fun _ _ list => list,
            runParser := c.runParser }
          schema cursor token state) := by
  unfold variableDefinitionTypesRule
  repeat' split
  all_goals rfl

/-- The rule `directiveRule` returns what `hintList` makes of the candidate list
the rule builds. -/
theorem directiveRule_eq_map
    (c : Collaborators T R) (schema : Schema T) (cursor : Cursor) (token : Token) (state :
    State) :
    directiveRule c schema cursor token state =
      Except.map (Option.map (c.hintList cursor token))
        (directiveRule 
          { getTypeInfo := c.getTypeInfo, hintList := fun _ _ list => list,
            runParser := c.runParser }
          schema cursor token state) := by
  unfold directiveRule
  repeat' split
  all_goals rfl

/-- The dispatcher hands `hintList` the cursor and the token it received and the
candidate list, and returns its result. -/
theorem getHintsAtPosition_eq_map_candidateList [DecidableEq T] (lib : GraphQL T)
    (c : Collaborators T R) (schema : Schema T) (sourceText : String) (cursor : Cursor)
    (token : Token) :
    getHintsAtPosition lib c schema sourceText cursor token =
      Except.map (Option.map (c.hintList cursor token))
        (candidateList lib c.getTypeInfo c.runParser schema sourceText cursor token) := by
  unfold candidateList getHintsAtPosition
  cases effectiveState token with
  | none => rfl
  | some state =>
    simp only []
    rw [definitionKindsRule_eq_map c, fieldNamesRule_eq_map lib c, argumentNamesRule_eq_map c,
      inputObjectFieldsRule_eq_map c, inputValuesRule_eq_map lib c,
      typeConditionRule_eq_map lib c, fragmentSpreadRule_eq_map lib c,
      variableDefinitionTypesRule_eq_map lib c, directiveRule_eq_map c]
    simp only [orNext_map]

/-- The candidate list does not depend on the cursor. -/
theorem candidateList_cursor [DecidableEq T] (lib : GraphQL T)
    (getTypeInfo : Schema T → State → TypeInfo T) (runParser : String → List State)
    (schema : Schema T) (sourceText : String) (cursor cursor2 : Cursor) (token : Token) :
    candidateList lib getTypeInfo runParser schema sourceText cursor token =
      candidateList lib getTypeInfo runParser schema sourceText cursor2 token := by
  simp only [candidateList, getHintsAtPosition, definitionKindsRule, fieldNamesRule,
    argumentNamesRule, inputObjectFieldsRule, inputValuesRule, typeConditionRule,
    fragmentSpreadRule, variableDefinitionTypesRule, directiveRule]

end Parametric

/-- C16: the dispatcher does not interpret the cursor. For any two cursors the
states on which the nine conditions are evaluated and the candidate list built
are the same, and the result of `getHintsAtPosition` is that of `hintList`
called with the cursor received, the token and that candidate list. -/
theorem cursor_passed_through {T R : Type} [DecidableEq T] (lib : GraphQL T)
    (c : Collaborators T R) (schema : Schema T) (sourceText : String)
    (cursor cursor2 : Cursor) (token : Token) :
    candidateList lib c.getTypeInfo c.runParser schema sourceText cursor token =
      candidateList lib c.getTypeInfo c.runParser schema sourceText cursor2 token ∧
    getHintsAtPosition lib c schema sourceText cursor token =
      Except.map (Option.map (c.hintList cursor token))
        (candidateList lib c.getTypeInfo c.runParser schema sourceText cursor2 token) := by
  refine ⟨candidateList_cursor lib _ _ schema sourceText cursor cursor2 token, ?_⟩
  rw [getHintsAtPosition_eq_map_candidateList,
    candidateList_cursor lib _ _ schema sourceText cursor cursor2 token]

/-- C20: the source text influences the result only at fragment-spread
positions. For a token whose effective state is not of kind `FragmentSpread` at
step 1, any two source texts, and any two scanners, give the same candidate
list (or both `undefined`, or both a throw): the document scan has no part in
the result. -/
theorem sourceText_only_at_fragmentSpread {T : Type} [DecidableEq T] (lib : GraphQL T)
    (getTypeInfo : Schema T → State → TypeInfo T) (runParser runParser2 : String → List State)
    (schema : Schema T) (sourceText sourceText2 : String) (cursor : Cursor) (token : Token)
    (hpos : ∀ state, effectiveState token = some state →
      ¬ (state.kind = "FragmentSpread" ∧ state.step = 1)) :
    candidateList lib getTypeInfo runParser schema sourceText cursor token =
      candidateList lib getTypeInfo runParser2 schema sourceText2 cursor token := by
  unfold candidateList getHintsAtPosition
  cases heff : effectiveState token with
  | none => rfl
  | some state =>
    have hfs : isFragmentSpread state = false := by
      have := hpos state heff
      simpa [isFragmentSpread] using this
    simp only [definitionKindsRule, fieldNamesRule, argumentNamesRule, inputObjectFieldsRule,
      inputValuesRule, typeConditionRule, fragmentSpreadRule, variableDefinitionTypesRule,
      directiveRule, hfs, Bool.false_eq_true, if_false]

/-- A witness of C20: a type condition, with two source texts and two scanners. -/
theorem sourceText_only_at_fragmentSpread_witness :
    candidateList Fixture.lib Fixture.getTypeInfo Fixture.runParser Fixture.schema
        "\x7b pet \x7b ... on " Fixture.cursor ⟨"on", 12, 14, Fixture.typeConditionInPet⟩ =
      candidateList Fixture.lib Fixture.getTypeInfo (fun _ => []) Fixture.schema
        "fragment A on Dog \x7b name \x7d" Fixture.cursor
        ⟨"on", 12, 14, Fixture.typeConditionInPet⟩ :=
  sourceText_only_at_fragmentSpread Fixture.lib Fixture.getTypeInfo Fixture.runParser
    (fun _ => []) Fixture.schema _ _ Fixture.cursor
    ⟨"on", 12, 14, Fixture.typeConditionInPet⟩ (by decide)

/-! ## The document scan and the enclosing definition -/

theorem getFragmentDefinitions_step (fragmentDefs : List FragmentDefinitionNode)
    (state : State) :
    (match state.name, state.type with
      | some name, some type =>
        if state.kind = "FragmentDefinition" ∧ truthy (some name) ∧ truthy (some type) then
          fragmentDefs ++ [{
            kind := "FragmentDefinition"
            name := { kind := "Name", value := name }
            typeCondition :=
              { kind := "NamedType", name := { kind := "Name", value := type } } }]
        else fragmentDefs
      | _, _ => fragmentDefs) =
      fragmentDefs ++ (specFragmentRecord state).toList := by
  unfold specFragmentRecord
  cases hn : state.name with
  | none => by_cases hk : state.kind = "FragmentDefinition" <;> simp [hk]
  | some name =>
    cases ht : state.type with
    | none => by_cases hk : state.kind = "FragmentDefinition" <;> simp [hk]
    | some type =>
      by_cases hk : state.kind = "FragmentDefinition" <;>
      by_cases h1 : name = "" <;> by_cases h2 : type = "" <;>
      simp [hk, h1, h2, truthy]

theorem foldl_append_toList {α β : Type} (f : α → Option β) (l : List α) (acc : List β) :
    l.foldl (fun out x => out ++ (f x).toList) acc = acc ++ l.filterMap f := by
  induction l generalizing acc with
  | nil => simp
  | cons x xs ih =>
    rw [List.foldl_cons, ih, List.filterMap_cons]
    cases f x <;> simp

/-- C18: for every source text `getFragmentDefinitions` returns, in the order of
the scanner's visitor invocations, exactly one record per invocation whose state
has kind `FragmentDefinition` with both a non-empty name and a non-empty type,
the record's name value being `state.name` and its type condition's name value
`state.type`; invocations with any other kind, or with a missing or empty name
or type, contribute nothing. -/
theorem getFragmentDefinitions_eq_filterMap (runParser : String → List State)
    (sourceText : String) :
    getFragmentDefinitions runParser sourceText =
      (runParser sourceText).filterMap specFragmentRecord := by
  unfold getFragmentDefinitions
  have hstep : (fun (fragmentDefs : List FragmentDefinitionNode) (state : State) =>
      match state.name, state.type with
      | some name, some type =>
        if state.kind = "FragmentDefinition" ∧ truthy (some name) ∧ truthy (some type) then
          fragmentDefs ++ [{
            kind := "FragmentDefinition"
            name := { kind := "Name", value := name }
            typeCondition :=
              { kind := "NamedType", name := { kind := "Name", value := type } } }]
        else fragmentDefs
      | _, _ => fragmentDefs) =
      fun fragmentDefs state => fragmentDefs ++ (specFragmentRecord state).toList := by
    funext fragmentDefs state
    exact getFragmentDefinitions_step fragmentDefs state
  have := foldl_append_toList specFragmentRecord (runParser sourceText) []
  simp only [List.nil_append] at this
  rw [← this]
  exact congrArg (fun g => List.foldl g [] (runParser sourceText)) hstep

/-- The fragment definitions of the fixture's scan. -/
theorem fixture_getFragmentDefinitions :
    (getFragmentDefinitions Fixture.runParser "").map (fun frag => frag.name.value) =
      ["DogFields", "PetFields", "Ghost", "QueryFields"] := by
  decide

/-- C19: the self-spread exclusion applies only under a fragment definition. At
a fragment-spread position whose enclosing definition state has kind `Query`,
`ShortQuery`, `Mutation` or `Subscription`, or that has no enclosing definition
state, the dispatcher returns a candidate list or throws, and returns one when
`doTypesOverlap` returns on the types of the discovered fragments; in a
candidate list it returns, every discovered fragment whose declared type is in
the schema's type map and overlaps the parent type is a candidate, one whose
name is the name of the enclosing definition included. -/
theorem fragmentSpread_keeps_namesake_of_operation {T : Type} [DecidableEq T]
    (lib : GraphQL T) (getTypeInfo : Schema T → State → TypeInfo T)
    (runParser : String → List State) (schema : Schema T) (sourceText : String)
    (cursor : Cursor) (token : Token) (state : State)
    (heff : effectiveState token = some state) (hk : state.kind = "FragmentSpread")
    (hs : state.step = 1)
    (hdef : getDefinitionState token.state = none ∨
      ∃ defState, getDefinitionState token.state = some defState ∧
        (defState.kind = "Query" ∨ defState.kind = "ShortQuery" ∨
          defState.kind = "Mutation" ∨ defState.kind = "Subscription")) :
    ((∃ hints, candidateList lib getTypeInfo runParser schema sourceText cursor token =
        .ok (some hints)) ∨
      candidateList lib getTypeInfo runParser schema sourceText cursor token =
        .error .typeError) ∧
    ((∀ frag ∈ getFragmentDefinitions runParser sourceText, ∀ fragType,
        schema.getTypeMap.get frag.typeCondition.name.value = some fragType →
        ∀ e, lib.doTypesOverlap schema (getTypeInfo schema state).parentType fragType ≠
          .error e) →
      ∃ hints, candidateList lib getTypeInfo runParser schema sourceText cursor token =
        .ok (some hints)) ∧
    (∀ hints, candidateList lib getTypeInfo runParser schema sourceText cursor token =
        .ok (some hints) →
      ∀ frag ∈ getFragmentDefinitions runParser sourceText,
        ∀ fragType, schema.getTypeMap.get frag.typeCondition.name.value = some fragType →
          lib.doTypesOverlap schema (getTypeInfo schema state).parentType fragType =
            .ok true →
          fragHint schema.getTypeMap frag ∈ hints ∧
          ((∃ defState, getDefinitionState token.state = some defState ∧
              defState.name = some frag.name.value) →
            fragHint schema.getTypeMap frag ∈ hints)) := by
  refine ⟨candidateList_fragmentSpread_cases lib getTypeInfo runParser schema sourceText
    cursor token state heff hk hs, ?_, ?_⟩
  · intro hret
    exact ⟨_, candidateList_fragmentSpread_returns lib getTypeInfo runParser schema sourceText
      cursor token state heff hk hs hret⟩
  · intro hints hlist frag hfrag fragType hget hover
    have hmem : fragHint schema.getTypeMap frag ∈ hints := by
      rw [candidateList_fragmentSpread_eq lib getTypeInfo runParser schema sourceText cursor
        token state heff hk hs hints hlist]
      apply List.mem_map_of_mem
      rw [List.mem_filter, decide_eq_true_eq, isRelevantFrag_iff]
      refine ⟨hfrag, ⟨fragType, hget, hover⟩, ?_⟩
      rintro ⟨d, hd, hdk, _⟩
      rcases hdef with hnone | ⟨d2, hd2, hkind⟩
      · rw [hnone] at hd; cases hd
      · rw [hd2] at hd
        cases hd
        rw [hdk] at hkind
        revert hkind
        decide
    exact ⟨hmem, fun _ => hmem⟩

/-- A witness of C19: a spread inside `query DogFields`, where the fragment
`DogFields` is offered. -/
theorem fragmentSpread_keeps_namesake_of_operation_witness :
    ∃ hints, candidateList Fixture.lib Fixture.getTypeInfo Fixture.runParser Fixture.schema
        "query DogFields \x7b ..." Fixture.cursor ⟨"...", 2, 5, Fixture.spreadInQuery⟩ =
        .ok (some hints) ∧
      ∀ frag ∈ getFragmentDefinitions Fixture.runParser "query DogFields \x7b ...",
        ∀ fragType,
          Fixture.schema.getTypeMap.get frag.typeCondition.name.value = some fragType →
          Fixture.lib.doTypesOverlap Fixture.schema
            (Fixture.getTypeInfo Fixture.schema Fixture.spreadInQuery).parentType
            fragType = .ok true →
          fragHint Fixture.schema.getTypeMap frag ∈ hints ∧
          ((∃ defState,
              getDefinitionState (Token.state ⟨"...", 2, 5, Fixture.spreadInQuery⟩) =
                some defState ∧
              defState.name = some frag.name.value) →
            fragHint Fixture.schema.getTypeMap frag ∈ hints) := by
  have h := fragmentSpread_keeps_namesake_of_operation Fixture.lib Fixture.getTypeInfo
    Fixture.runParser Fixture.schema "query DogFields \x7b ..." Fixture.cursor
    ⟨"...", 2, 5, Fixture.spreadInQuery⟩ Fixture.spreadInQuery
    (by decide) (by decide) (by decide)
    (Or.inr ⟨.node "Query" 2 (some "DogFields") none (.root "Document" 0 none none),
      by decide, Or.inl (by decide)⟩)
  obtain ⟨hints, hlist⟩ :=
    h.2.1 (fun _ _ fragType _ e => fixture_doTypesOverlap_returns _ fragType e)
  exact ⟨hints, hlist, h.2.2 hints hlist⟩

/-- The candidates of the fixture's spread inside `query DogFields`: the
fragment `DogFields` is offered, and so is `PetFields`. -/
theorem fixture_fragmentSpread_in_query :
    candidateList Fixture.lib Fixture.getTypeInfo Fixture.runParser Fixture.schema
        "query DogFields \x7b ..." Fixture.cursor ⟨"...", 2, 5, Fixture.spreadInQuery⟩ =
      .ok (some [{ text := "DogFields", type := some Fixture.dogT,
                   description := some "fragment DogFields on Dog" },
                 { text := "PetFields", type := some Fixture.petT,
                   description := some "fragment PetFields on Pet" }]) := by
  decide

/-! ## The enclosing definition -/

theorem foldl_keep_last (p : State → Bool) (l : List State) (acc : Option State) :
    l.foldl (fun definitionState state => if p state then some state else definitionState)
        acc =
      match (l.filter p).getLast? with
      | some state => some state
      | none => acc := by
  induction l generalizing acc with
  | nil => rfl
  | cons x xs ih =>
    rw [List.foldl_cons, ih]
    by_cases hx : p x = true
    · simp only [hx, if_true, List.filter_cons_of_pos, List.getLast?_cons]
      cases (xs.filter p).getLast? <;> rfl
    · simp only [hx, Bool.false_eq_true, if_false]
      rw [List.filter_cons_of_neg hx]

/-- The function `getDefinitionState` gives the state with a definition kind
that `forEachState` visits last. -/
theorem getDefinitionState_eq_getLast (tokenState : State) :
    getDefinitionState tokenState =
      ((forEachState tokenState).filter (fun state => isDefinitionKind state.kind)).getLast? := by
  unfold getDefinitionState
  have hfun : (fun (definitionState : Option State) (state : State) =>
      if state.kind = "Query" ∨ state.kind = "ShortQuery" ∨ state.kind = "Mutation" ∨
          state.kind = "Subscription" ∨ state.kind = "FragmentDefinition" then
        some state
      else definitionState) =
      fun definitionState state =>
        if isDefinitionKind state.kind then some state else definitionState := by
    funext definitionState state
    simp [isDefinitionKind]
  rw [hfun, foldl_keep_last]
  cases ((forEachState tokenState).filter (fun state => isDefinitionKind state.kind)).getLast? <;>
    rfl

/-- The closest ancestor definition header is the last state with a definition
kind on the way from the root to the token state. -/
theorem specClosestDefinition_eq_getLast (tokenState : State) :
    specClosestDefinition tokenState =
      ((forEachState tokenState).filter (fun state => isDefinitionKind state.kind)).getLast? := by
  induction tokenState with
  | root k s n t =>
    by_cases h : isDefinitionKind k = true <;>
    simp [specClosestDefinition, forEachState, State.kind, h]
  | node k s n t p ih =>
    by_cases h : isDefinitionKind k = true
    · simp [specClosestDefinition, forEachState, State.kind, h, List.filter_append]
    · simp [specClosestDefinition, forEachState, State.kind, h, List.filter_append, ih]

/-- C17: for every token state chain `getDefinitionState` returns the closest
ancestor definition header, the state nearest to the token among the states of
the chain whose kind is `Query`, `ShortQuery`, `Mutation`, `Subscription` or
`FragmentDefinition`, and returns `undefined` exactly when no state of the chain
has one of those kinds. -/
theorem getDefinitionState_closest_header (tokenState : State) :
    getDefinitionState tokenState = specClosestDefinition tokenState ∧
    (getDefinitionState tokenState = none ↔
      ∀ state ∈ forEachState tokenState, isDefinitionKind state.kind = false) := by
  refine ⟨?_, ?_⟩
  · rw [getDefinitionState_eq_getLast, specClosestDefinition_eq_getLast]
  · rw [getDefinitionState_eq_getLast, List.getLast?_eq_none_iff, List.filter_eq_nil_iff]
    constructor
    · intro h state hs
      simpa using h state hs
    · intro h state hs
      simp [h state hs]

/-- The enclosing definitions of the fixture: inside `fragment PetFields on Pet`
the fragment definition header; in a chain with a query header inside a
fragment definition header, the query header, the closer of the two. -/
theorem fixture_getDefinitionState :
    getDefinitionState Fixture.spreadInPetFields =
      some (.node "FragmentDefinition" 4 (some "PetFields") (some "Pet")
        (.root "Document" 0 none none)) ∧
    getDefinitionState Fixture.nestedDefinitions =
      some (.node "Query" 1 (some "Inner") none
        (.node "FragmentDefinition" 4 (some "Outer") (some "Pet")
          (.root "Document" 0 none none))) ∧
    getDefinitionState (.node "Field" 0 none none (.root "Document" 0 none none)) = none := by
  decide

end GetHints
